import Mathlib

/-!
Shallow embedding of the loan-calculator engine.

The main engine is `src/src/index.js` (class `LoanCalculatorEngine`): its
per-period loop `calculate`, the context builder `__calculateContextAt`, the
per-period computation `__calculateAmortizationAt` / `__calculateRepayment`,
and the post passes `__calculateTotals` / `__calculateInterestBalance`.
The legacy engine `src/index.js` (`LoanCalculatorEngine.prototype.calculate`)
is embedded separately for the refinement comparison.

Modelling decisions:
- Money arithmetic is exact (`ℚ`), matching the spec's "exact arithmetic".
- `effTerm` is modelled as a natural number of periods: it is the loop bound
  `for (period = 1; period <= effTerm; ...)`, and every claim treats it as an
  integer period count.
- Operators are external collaborators.  Per the operator contract their only
  effect is to set the optional context fields `fee`, `offset`, `lumpSum`,
  `effExtraRepayment` and to overwrite `effInterestRate`; a run is therefore
  parameterised by a function `ops : ℕ → OpPatch` giving, for each period, the
  merged result of all active operators' writes.
- The annuity formula `pmt` lives in the external `financial-calculator-engine`
  package (not in this repository); it is modelled from the spec's contract.
- JS exceptions from the `SummaryItem` constructor guard are modelled with
  `Except`; the guard's argument domain (undefined / NaN / infinite / finite
  numbers) is modelled by `Option JSNum`.
-/

/-- Repayment types, from the static object `LoanCalculatorEngine.repaymentType`
(`interestOnly: 'IO'`, `principalAndInterest: 'PI'`). -/
inductive RepaymentType where
  | interestOnly
  | principalAndInterest
  deriving DecidableEq

/-- The normalized base context (class `BaseContext` after
`__normalizeValues`): the effective per-period interest rate, the effective
term (period count), the configured repayment and repayment type.  The
nominal rate/term and frequencies only feed the external normalization
formulas and are not needed by any claim. -/
structure BaseCtx where
  principal : ℚ
  effInterestRate : ℚ
  effTerm : ℕ
  repayment : ℚ
  repaymentType : RepaymentType
  deriving DecidableEq

/-- The merged writes of all operators active at a period (operator contract,
spec section 6): each operator may set `fee`, `offset`, `lumpSum`,
`effExtraRepayment` or overwrite `effInterestRate`; `none` means no active
operator wrote the field. -/
structure OpPatch where
  fee : Option ℚ := none
  offset : Option ℚ := none
  lumpSum : Option ℚ := none
  effExtraRepayment : Option ℚ := none
  effInterestRate : Option ℚ := none

/-- Per-period context (class `ContextItem`).  The operator-contributed fields
default to `0`, matching the `context.fee || 0` style reads in
`__calculateAmortizationAt`. -/
structure ContextItem where
  period : ℕ
  principal : ℚ
  effInterestRate : ℚ
  effTerm : ℕ
  repayment : ℚ
  repaymentType : RepaymentType
  fee : ℚ
  offset : ℚ
  lumpSum : ℚ
  effExtraRepayment : ℚ
  deriving DecidableEq

/-- Per-period result (class `AmortizationItem`); a fresh item has all numeric
fields `0`. -/
structure AmortizationItem where
  period : ℕ
  principalBalance : ℚ
  interestBalance : ℚ
  interestPaid : ℚ
  principalPaid : ℚ
  repayment : ℚ
  deriving DecidableEq

def dummyCtx : ContextItem :=
  ⟨0, 0, 0, 0, 0, RepaymentType.principalAndInterest, 0, 0, 0, 0⟩

def dummyAm : AmortizationItem := ⟨0, 0, 0, 0, 0, 0⟩

/-- Merge the operators' writes into a context (the `operator.process(period,
context)` calls in `__calculateContextAt`). -/
def applyPatch (p : OpPatch) (c : ContextItem) : ContextItem :=
  { c with
    fee := p.fee.getD c.fee
    offset := p.offset.getD c.offset
    lumpSum := p.lumpSum.getD c.lumpSum
    effExtraRepayment := p.effExtraRepayment.getD c.effExtraRepayment
    effInterestRate := p.effInterestRate.getD c.effInterestRate }

/-- A fresh `ContextItem(period, this.__context)` with the given opening
principal: all fields copied from the base context. -/
def baseContextItem (base : BaseCtx) (period : ℕ) (principal : ℚ) : ContextItem :=
  { period := period
    principal := principal
    effInterestRate := base.effInterestRate
    effTerm := base.effTerm
    repayment := base.repayment
    repaymentType := base.repaymentType
    fee := 0
    offset := 0
    lumpSum := 0
    effExtraRepayment := 0 }

/-- `__calculateContextAt(period)`: a fresh context whose principal is the
previous amortization's final balance, then all active operators applied. -/
def calculateContextAt (base : BaseCtx) (ops : ℕ → OpPatch) (period : ℕ)
    (prevBalance : ℚ) : ContextItem :=
  applyPatch (ops period) (baseContextItem base period prevBalance)

/-- Modelled from the spec: the annuity-payment formula of the external
`financial-calculator-engine` package (`CalculatorEngineMath.pmt`), which is
not part of this repository.  Per the spec's Formula Library contract it is
the level payment that fully amortizes `principal` over `n` periods at rate
`rate`, with `pmt P 0 n = P / n` and `pmt P r 1 = P * (1 + r)`. -/
def pmt (principal rate : ℚ) (n : ℕ) : ℚ :=
  if rate = 0 then principal / n
  else principal * rate * (1 + rate) ^ n / ((1 + rate) ^ n - 1)

/-- `__calculateRepayment(period, context)`: interest-only pays
`principal * effInterestRate`; otherwise the annuity payment over the
remaining `effTerm - period + 1` periods. -/
def calculateRepayment (c : ContextItem) : ℚ :=
  if c.repaymentType = RepaymentType.interestOnly then
    c.principal * c.effInterestRate
  else
    pmt c.principal c.effInterestRate ((c.effTerm - c.period) + 1)

/-- The tail of `__calculateAmortizationAt` (lines after the
`context.repayment = repayment` write): every value read there comes from the
updated context, so the amortization item is a function of it.  Loan mode
clamps the adjusted repayment when it exceeds the opening principal
(`if (repayment > context.principal)`); savings mode grows the balance
instead.  The fee is added to the reported repayment last. -/
def amortFromCtx (sav : Bool) (c : ContextItem) : AmortizationItem :=
  let adjustedRepayment := c.repayment + c.effExtraRepayment + c.lumpSum
  let consideredPrincipal := c.principal - c.offset
  let interestPaid := max (consideredPrincipal * c.effInterestRate) 0
  if sav then
    { period := c.period
      principalBalance := c.principal + adjustedRepayment + interestPaid
      interestBalance := 0
      interestPaid := interestPaid
      principalPaid := 0
      repayment := adjustedRepayment + c.fee }
  else
    let clampedRepayment :=
      if c.principal < adjustedRepayment then c.principal + interestPaid
      else adjustedRepayment
    let principalPaid := clampedRepayment - interestPaid
    { period := c.period
      principalBalance := c.principal - principalPaid
      interestBalance := 0
      interestPaid := interestPaid
      principalPaid := principalPaid
      repayment := clampedRepayment + c.fee }

/-- `__calculateAmortizationAt(period, context)`: reuse the previous context's
repayment unless (loan mode and (period 1 or the effective rate changed)), in
which case recompute; store the value back into the context (the
`context.repayment = repayment` mutation) and compute the period's result. -/
def calculateAmortizationAt (sav : Bool) (prevContext c : ContextItem) :
    ContextItem × AmortizationItem :=
  let repayment :=
    if sav = false ∧ (c.period = 1 ∨ prevContext.effInterestRate ≠ c.effInterestRate)
    then calculateRepayment c
    else prevContext.repayment
  let updated := { c with repayment := repayment }
  (updated, amortFromCtx sav updated)

/-- One iteration of the `calculate` loop body: build the period's context
from the previous amortization's balance, then compute the period's results. -/
def stepPair (sav : Bool) (base : BaseCtx) (ops : ℕ → OpPatch)
    (prev : ContextItem × AmortizationItem) (cur : ℕ) :
    ContextItem × AmortizationItem :=
  calculateAmortizationAt sav prev.1 (calculateContextAt base ops cur prev.2.principalBalance)

/-- The `calculate` loop over periods `cur, cur+1, ...` with `rem` periods of
budget left: each iteration appends its (context, amortization) pair, and in
loan mode a non-positive balance breaks the loop after the push. -/
def calcLoop (sav : Bool) (base : BaseCtx) (ops : ℕ → OpPatch) :
    ContextItem × AmortizationItem → ℕ → ℕ → List (ContextItem × AmortizationItem)
  | _, _, 0 => []
  | prev, cur, rem + 1 =>
    let pr := stepPair sav base ops prev cur
    pr :: (if sav = false ∧ pr.2.principalBalance ≤ 0 then []
           else calcLoop sav base ops pr (cur + 1) rem)

/-- The period-0 context pushed by `__calculateInitialPeriod`. -/
def initCtx (base : BaseCtx) : ContextItem :=
  baseContextItem base 0 base.principal

/-- The period-0 amortization item pushed by `__calculateInitialPeriod`:
fresh item with `principalBalance = context.principal`. -/
def initAm (base : BaseCtx) : AmortizationItem :=
  { period := 0
    principalBalance := base.principal
    interestBalance := 0
    interestPaid := 0
    principalPaid := 0
    repayment := 0 }

/-- The pairs produced by the periods-1-onwards loop of `calculate`. -/
def loopList (sav : Bool) (base : BaseCtx) (ops : ℕ → OpPatch) :
    List (ContextItem × AmortizationItem) :=
  calcLoop sav base ops (initCtx base, initAm base) 1 base.effTerm

/-- The value of `this.totals`: JS `Array.prototype.reduce` without a seed
returns the single element itself on a one-element array, and otherwise folds
the two-field `{repayment, interestPaid}` object. -/
inductive TotalsVal where
  | item : AmortizationItem → TotalsVal
  | pair : ℚ → ℚ → TotalsVal
  deriving DecidableEq

def TotalsVal.repayment : TotalsVal → ℚ
  | .item a => a.repayment
  | .pair r _ => r

def TotalsVal.interestPaid : TotalsVal → ℚ
  | .item a => a.interestPaid
  | .pair _ i => i

/-- `__calculateTotals`: `amortizationList.reduce(...)` with no seed.  On an
empty list JS throws, modelled by `none` (never reached: the list always
holds the period-0 item). -/
def jsReduceTotals : List AmortizationItem → Option TotalsVal
  | [] => none
  | a :: rest =>
    some (rest.foldl
      (fun acc cur =>
        TotalsVal.pair (acc.repayment + cur.repayment) (acc.interestPaid + cur.interestPaid))
      (TotalsVal.item a))

/-- `__calculateInterestBalance`: walk the list with a running balance,
subtracting each period's `interestPaid` (sign-inverted in savings mode) and
storing the running value into the item. -/
def interestBalancePass (sav : Bool) : ℚ → List AmortizationItem → List AmortizationItem
  | _, [] => []
  | bal, a :: rest =>
    let newBal := bal - (if sav then -a.interestPaid else a.interestPaid)
    { a with interestBalance := newBal } :: interestBalancePass sav newBal rest

/-- The object returned by `calculate()`. -/
structure CalcResult where
  totals : Option TotalsVal
  contextList : List ContextItem
  amortizationList : List AmortizationItem
  deriving DecidableEq

/-- `calculate()` of `src/src/index.js`: initial period, the per-period loop,
then the totals pass and the interest-balance pass (seeded with
`totals.interestPaid` in loan mode, `0` in savings mode). -/
def calculate (sav : Bool) (base : BaseCtx) (ops : ℕ → OpPatch) : CalcResult :=
  let l := loopList sav base ops
  let contextList := initCtx base :: l.map Prod.fst
  let ams := initAm base :: l.map Prod.snd
  let totals := jsReduceTotals ams
  let seed := if sav then 0 else (match totals with | some t => t.interestPaid | none => 0)
  { totals := totals
    contextList := contextList
    amortizationList := interestBalancePass sav seed ams }

/-- An operator set with no active operators at any period. -/
def noOps : ℕ → OpPatch := fun _ => {}

/-- Argument domain of the `SummaryItem` constructor guard: a JS `period`
argument is undefined (`none`) or a number, where a number is NaN, an
infinity or a finite value. -/
inductive JSNum where
  | nan
  | posInfty
  | negInfty
  | fin (q : ℚ)
  deriving DecidableEq

def JSNum.isFiniteNum : JSNum → Bool
  | .fin _ => true
  | _ => false

def jsIsNaN : JSNum → Bool
  | .nan => true
  | _ => false

/-- The `SummaryItem` constructor: throws when `period` is undefined
(`_.isUndefined`) or NaN (`_.isNaN`); otherwise stores it. -/
def mkSummaryItem : Option JSNum → Except String JSNum
  | none => Except.error "SummaryItem: period is undefined."
  | some p =>
    if jsIsNaN p then Except.error "SummaryItem: period must be a number."
    else Except.ok p

/-- True when the `SummaryItem` constructor throws on this argument. -/
def summaryItemFails (p : Option JSNum) : Bool :=
  match mkSummaryItem p with
  | .error _ => true
  | .ok _ => false

/-- The `calculate` loop with the `SummaryItem` construction guard threaded
through `Except`: each iteration constructs its `ContextItem` and
`AmortizationItem` (both run the same guard on the loop counter), and a
thrown error aborts the whole run. -/
def calcLoopChecked (sav : Bool) (base : BaseCtx) (ops : ℕ → OpPatch) :
    ContextItem × AmortizationItem → ℕ → ℕ →
    Except String (List (ContextItem × AmortizationItem))
  | _, _, 0 => Except.ok []
  | prev, cur, rem + 1 =>
    match mkSummaryItem (some (JSNum.fin cur)) with
    | .error e => Except.error e
    | .ok _ =>
      let pr := stepPair sav base ops prev cur
      (if sav = false ∧ pr.2.principalBalance ≤ 0 then Except.ok []
       else calcLoopChecked sav base ops pr (cur + 1) rem).map (pr :: ·)

/-- `calculate()` with the period-0 and per-period construction guards made
explicit: any construction error aborts with no partial result. -/
def calculateChecked (sav : Bool) (base : BaseCtx) (ops : ℕ → OpPatch) :
    Except String CalcResult :=
  match mkSummaryItem (some (JSNum.fin 0)) with
  | .error e => Except.error e
  | .ok _ =>
    (calcLoopChecked sav base ops (initCtx base, initAm base) 1 base.effTerm).map
      (fun l =>
        let contextList := initCtx base :: l.map Prod.fst
        let ams := initAm base :: l.map Prod.snd
        let totals := jsReduceTotals ams
        let seed := if sav then 0 else (match totals with | some t => t.interestPaid | none => 0)
        { totals := totals
          contextList := contextList
          amortizationList := interestBalancePass sav seed ams })

/-- A summary row of the legacy engine (`LoanSummaryItem` in `src/index.js`). -/
structure LoanSummaryItem where
  period : ℕ
  principalInitialBalance : ℚ
  principalFinalBalance : ℚ
  interestPaid : ℚ
  principalPaid : ℚ
  pmt : ℚ
  deriving DecidableEq

def dummyLeg : LoanSummaryItem := ⟨0, 0, 0, 0, 0, 0⟩

/-- The loop body of the legacy `LoanCalculatorEngine.prototype.calculate`
(`src/index.js`): every period recomputes `pmt` from the previous final
balance and the remaining term `numberOfPeriods - currentPeriod + 1`. -/
def legacyCalcList (r : ℚ) (n : ℕ) : ℕ → ℕ → ℚ → List LoanSummaryItem
  | _, 0, _ => []
  | cur, rem + 1, prevBalance =>
    let p := pmt prevBalance r ((n - cur) + 1)
    let interestPaid := prevBalance * r
    let principalPaid := p - interestPaid
    let finalBalance := prevBalance - principalPaid
    { period := cur
      principalInitialBalance := prevBalance
      principalFinalBalance := finalBalance
      interestPaid := interestPaid
      principalPaid := principalPaid
      pmt := p } :: legacyCalcList r n (cur + 1) rem finalBalance

/-- The legacy engine's summary list for a constant effective rate `r` and
integer effective term `n` with no operators (the claim's setting); the
legacy totals reduction is not referenced by any claim and is omitted. -/
def legacyCalculate (principal r : ℚ) (n : ℕ) : List LoanSummaryItem :=
  legacyCalcList r n 1 n principal

/-- Closed form of the outstanding balance after `i` periods of a level
annuity: `b * ((1+r)^n - (1+r)^i) / ((1+r)^n - 1)`. -/
def annB (b r : ℚ) (n i : ℕ) : ℚ :=
  b * ((1 + r) ^ n - (1 + r) ^ i) / ((1 + r) ^ n - 1)

/-- Closed form of the level annuity payment on `b` over `n` periods. -/
def annM (b r : ℚ) (n : ℕ) : ℚ :=
  b * r * (1 + r) ^ n / ((1 + r) ^ n - 1)

/-- The same operator set with every fee write removed (used to state that
fees are a frame: they change nothing but the reported repayment). -/
def feeFree (ops : ℕ → OpPatch) : ℕ → OpPatch := fun p => { ops p with fee := none }

/-- Removing the period's fee from a produced (context, amortization) pair:
the context loses its fee and the amortization's reported repayment drops by
exactly that fee; nothing else moves. -/
def stripFee : ContextItem × AmortizationItem → ContextItem × AmortizationItem :=
  fun pr => ({ pr.1 with fee := 0 },
             { pr.2 with repayment := pr.2.repayment - pr.1.fee })

/-- Expected legacy-engine row for period `i` of a plain annuity loan. -/
def legacyRow (b r : ℚ) (n i : ℕ) : LoanSummaryItem :=
  { period := i
    principalInitialBalance := annB b r n (i - 1)
    principalFinalBalance := annB b r n i
    interestPaid := annB b r n (i - 1) * r
    principalPaid := annM b r n - annB b r n (i - 1) * r
    pmt := annM b r n }

/-- Expected main-engine context row for period `i` of a plain annuity loan
(configured repayment `w` is overwritten at period 1). -/
def engineCtxRow (b r : ℚ) (n i : ℕ) : ContextItem :=
  { period := i
    principal := annB b r n (i - 1)
    effInterestRate := r
    effTerm := n
    repayment := annM b r n
    repaymentType := RepaymentType.principalAndInterest
    fee := 0
    offset := 0
    lumpSum := 0
    effExtraRepayment := 0 }

/-- Expected main-engine amortization row for period `i` of a plain annuity
loan, before the interest-balance pass. -/
def engineAmRow (b r : ℚ) (n i : ℕ) : AmortizationItem :=
  { period := i
    principalBalance := annB b r n i
    interestBalance := 0
    interestPaid := annB b r n (i - 1) * r
    principalPaid := annM b r n - annB b r n (i - 1) * r
    repayment := annM b r n }

theorem calcLoop_succ_eq (sav : Bool) (base : BaseCtx) (ops : ℕ → OpPatch)
    (prev : ContextItem × AmortizationItem) (cur rem : ℕ) :
    calcLoop sav base ops prev cur (rem + 1) =
      stepPair sav base ops prev cur ::
        (if sav = false ∧ (stepPair sav base ops prev cur).2.principalBalance ≤ 0 then []
         else calcLoop sav base ops (stepPair sav base ops prev cur) (cur + 1) rem) := rfl

theorem calcLoop_length_le (sav : Bool) (base : BaseCtx) (ops : ℕ → OpPatch) :
    ∀ rem cur prev, (calcLoop sav base ops prev cur rem).length ≤ rem := by
  intro rem
  induction rem with
  | zero => intro cur prev; simp [calcLoop]
  | succ rem ih =>
    intro cur prev
    rw [calcLoop_succ_eq]
    split
    · simp
    · simp only [List.length_cons]
      exact Nat.succ_le_succ (ih _ _)

theorem calcLoop_savings_length (base : BaseCtx) (ops : ℕ → OpPatch) :
    ∀ rem cur prev, (calcLoop true base ops prev cur rem).length = rem := by
  intro rem
  induction rem with
  | zero => intro cur prev; rfl
  | succ rem ih =>
    intro cur prev
    rw [calcLoop_succ_eq, if_neg (by simp)]
    simp [ih]

theorem calcLoop_getD_zero (sav : Bool) (base : BaseCtx) (ops : ℕ → OpPatch)
    (prev : ContextItem × AmortizationItem) (cur rem : ℕ)
    (d : ContextItem × AmortizationItem)
    (h : 0 < (calcLoop sav base ops prev cur rem).length) :
    (calcLoop sav base ops prev cur rem).getD 0 d = stepPair sav base ops prev cur := by
  cases rem with
  | zero => simp [calcLoop] at h
  | succ rem => rw [calcLoop_succ_eq]; simp

theorem calcLoop_chain (sav : Bool) (base : BaseCtx) (ops : ℕ → OpPatch)
    (d : ContextItem × AmortizationItem) :
    ∀ rem cur prev i, i + 1 < (calcLoop sav base ops prev cur rem).length →
    (calcLoop sav base ops prev cur rem).getD (i + 1) d =
      stepPair sav base ops ((calcLoop sav base ops prev cur rem).getD i d) (cur + i + 1) := by
  intro rem
  induction rem with
  | zero => intro cur prev i h; simp [calcLoop] at h
  | succ rem ih =>
    intro cur prev i h
    rw [calcLoop_succ_eq] at h ⊢
    by_cases hc : sav = false ∧ (stepPair sav base ops prev cur).2.principalBalance ≤ 0
    · rw [if_pos hc] at h
      simp at h
    · rw [if_neg hc] at h ⊢
      cases i with
      | zero =>
        simp only [List.getD_cons_succ, List.getD_cons_zero]
        have hlen : 0 < (calcLoop sav base ops (stepPair sav base ops prev cur) (cur + 1) rem).length := by
          simp only [List.length_cons] at h; omega
        rw [calcLoop_getD_zero _ _ _ _ _ _ _ hlen]
      | succ j =>
        simp only [List.getD_cons_succ]
        have harith : cur + 1 + j + 1 = cur + (j + 1) + 1 := by omega
        rw [ih (cur + 1) _ j (by simpa using h), harith]

theorem stepPair_fst_period (sav : Bool) (base : BaseCtx) (ops : ℕ → OpPatch)
    (prev : ContextItem × AmortizationItem) (cur : ℕ) :
    (stepPair sav base ops prev cur).1.period = cur := by
  simp [stepPair, calculateAmortizationAt, calculateContextAt, applyPatch, baseContextItem]

theorem stepPair_snd (sav : Bool) (base : BaseCtx) (ops : ℕ → OpPatch)
    (prev : ContextItem × AmortizationItem) (cur : ℕ) :
    (stepPair sav base ops prev cur).2 = amortFromCtx sav (stepPair sav base ops prev cur).1 := rfl

theorem amortFromCtx_period (sav : Bool) (c : ContextItem) :
    (amortFromCtx sav c).period = c.period := by
  cases sav <;> simp [amortFromCtx]

theorem stepPair_snd_period (sav : Bool) (base : BaseCtx) (ops : ℕ → OpPatch)
    (prev : ContextItem × AmortizationItem) (cur : ℕ) :
    (stepPair sav base ops prev cur).2.period = cur := by
  rw [stepPair_snd, amortFromCtx_period, stepPair_fst_period]

theorem calcLoop_mem (sav : Bool) (base : BaseCtx) (ops : ℕ → OpPatch) :
    ∀ rem cur prev x, x ∈ calcLoop sav base ops prev cur rem →
    ∃ p k, x = stepPair sav base ops p k := by
  intro rem
  induction rem with
  | zero => intro cur prev x h; simp [calcLoop] at h
  | succ rem ih =>
    intro cur prev x h
    rw [calcLoop_succ_eq] at h
    rcases List.mem_cons.mp h with h | h
    · exact ⟨prev, cur, h⟩
    · split at h
      · simp at h
      · exact ih _ _ _ h

theorem calcLoop_snd_amort (sav : Bool) (base : BaseCtx) (ops : ℕ → OpPatch)
    (prev : ContextItem × AmortizationItem) (cur rem : ℕ)
    (d : ContextItem × AmortizationItem) (i : ℕ)
    (h : i < (calcLoop sav base ops prev cur rem).length) :
    ((calcLoop sav base ops prev cur rem).getD i d).2 =
      amortFromCtx sav ((calcLoop sav base ops prev cur rem).getD i d).1 := by
  rw [List.getD_eq_getElem _ _ h]
  obtain ⟨p, k, hx⟩ := calcLoop_mem sav base ops rem cur prev _ (List.getElem_mem h)
  rw [hx, stepPair_snd]

theorem calcLoop_periods (sav : Bool) (base : BaseCtx) (ops : ℕ → OpPatch)
    (d : ContextItem × AmortizationItem) :
    ∀ rem cur prev i, i < (calcLoop sav base ops prev cur rem).length →
    ((calcLoop sav base ops prev cur rem).getD i d).1.period = cur + i ∧
    ((calcLoop sav base ops prev cur rem).getD i d).2.period = cur + i := by
  intro rem
  induction rem with
  | zero => intro cur prev i h; simp [calcLoop] at h
  | succ rem ih =>
    intro cur prev i h
    rw [calcLoop_succ_eq] at h ⊢
    by_cases hc : sav = false ∧ (stepPair sav base ops prev cur).2.principalBalance ≤ 0
    · rw [if_pos hc] at h ⊢
      cases i with
      | zero => simp [stepPair_fst_period, stepPair_snd_period]
      | succ j => simp at h
    · rw [if_neg hc] at h ⊢
      cases i with
      | zero => simp [stepPair_fst_period, stepPair_snd_period]
      | succ j =>
        simp only [List.getD_cons_succ]
        have := ih (cur + 1) (stepPair sav base ops prev cur) j (by simpa using h)
        omega

theorem calcLoop_no_early (sav : Bool) (base : BaseCtx) (ops : ℕ → OpPatch)
    (d : ContextItem × AmortizationItem) :
    ∀ rem cur prev i, i + 1 < (calcLoop sav base ops prev cur rem).length →
    ¬(sav = false ∧ ((calcLoop sav base ops prev cur rem).getD i d).2.principalBalance ≤ 0) := by
  intro rem
  induction rem with
  | zero => intro cur prev i h; simp [calcLoop] at h
  | succ rem ih =>
    intro cur prev i h
    rw [calcLoop_succ_eq] at h ⊢
    by_cases hc : sav = false ∧ (stepPair sav base ops prev cur).2.principalBalance ≤ 0
    · rw [if_pos hc] at h; simp at h
    · rw [if_neg hc] at h ⊢
      cases i with
      | zero => simpa using hc
      | succ j =>
        simp only [List.getD_cons_succ]
        exact ih _ _ j (by simpa using h)

theorem calcLoop_last_or_full (sav : Bool) (base : BaseCtx) (ops : ℕ → OpPatch)
    (d : ContextItem × AmortizationItem) :
    ∀ rem cur prev,
    (calcLoop sav base ops prev cur rem).length = rem ∨
    (0 < (calcLoop sav base ops prev cur rem).length ∧ sav = false ∧
      ((calcLoop sav base ops prev cur rem).getD
        ((calcLoop sav base ops prev cur rem).length - 1) d).2.principalBalance ≤ 0) := by
  intro rem
  induction rem with
  | zero => intro cur prev; left; rfl
  | succ rem ih =>
    intro cur prev
    rw [calcLoop_succ_eq]
    by_cases hc : sav = false ∧ (stepPair sav base ops prev cur).2.principalBalance ≤ 0
    · rw [if_pos hc]
      right
      exact ⟨by simp, hc.1, by simpa using hc.2⟩
    · rw [if_neg hc]
      rcases ih (cur + 1) (stepPair sav base ops prev cur) with h | ⟨hpos, hsav, hlast⟩
      · left; simp [h]
      · right
        refine ⟨by simp, hsav, ?_⟩
        have hlen : (stepPair sav base ops prev cur ::
            calcLoop sav base ops (stepPair sav base ops prev cur) (cur + 1) rem).length - 1 =
            ((calcLoop sav base ops (stepPair sav base ops prev cur) (cur + 1) rem).length - 1) + 1 := by
          simp only [List.length_cons]
          omega
        rw [hlen, List.getD_cons_succ]
        exact hlast

theorem calcLoop_savings_repayment (base : BaseCtx) (ops : ℕ → OpPatch)
    (d : ContextItem × AmortizationItem) :
    ∀ rem cur prev, prev.1.repayment = base.repayment →
    ∀ i, i < (calcLoop true base ops prev cur rem).length →
    ((calcLoop true base ops prev cur rem).getD i d).1.repayment = base.repayment := by
  intro rem
  induction rem with
  | zero => intro cur prev _ i h; simp [calcLoop] at h
  | succ rem ih =>
    intro cur prev hprev i h
    rw [calcLoop_succ_eq, if_neg (by simp)] at h ⊢
    have hstep : (stepPair true base ops prev cur).1.repayment = prev.1.repayment := by
      simp [stepPair, calculateAmortizationAt]
    cases i with
    | zero => simpa [hstep] using hprev
    | succ j =>
      simp only [List.getD_cons_succ]
      exact ih _ _ (hstep.trans hprev) j (by simpa using h)

theorem interestBalancePass_length (sav : Bool) :
    ∀ xs seed, (interestBalancePass sav seed xs).length = xs.length := by
  intro xs
  induction xs with
  | nil => intro seed; rfl
  | cons a rest ih => intro seed; simp [interestBalancePass, ih]

theorem interestBalancePass_fields (sav : Bool) :
    ∀ xs seed i, i < xs.length →
    ((interestBalancePass sav seed xs).getD i dummyAm).period = (xs.getD i dummyAm).period ∧
    ((interestBalancePass sav seed xs).getD i dummyAm).principalBalance =
      (xs.getD i dummyAm).principalBalance ∧
    ((interestBalancePass sav seed xs).getD i dummyAm).interestPaid =
      (xs.getD i dummyAm).interestPaid ∧
    ((interestBalancePass sav seed xs).getD i dummyAm).principalPaid =
      (xs.getD i dummyAm).principalPaid ∧
    ((interestBalancePass sav seed xs).getD i dummyAm).repayment =
      (xs.getD i dummyAm).repayment := by
  intro xs
  induction xs with
  | nil => intro seed i h; simp at h
  | cons a rest ih =>
    intro seed i h
    cases i with
    | zero => simp [interestBalancePass]
    | succ j =>
      simp only [interestBalancePass, List.getD_cons_succ]
      exact ih _ j (by simpa using h)

theorem interestBalancePass_head (sav : Bool) (seed : ℚ) (a : AmortizationItem)
    (rest : List AmortizationItem) :
    ((interestBalancePass sav seed (a :: rest)).getD 0 dummyAm).interestBalance =
      seed - (if sav then -a.interestPaid else a.interestPaid) := by
  simp [interestBalancePass]

theorem interestBalancePass_chain (sav : Bool) :
    ∀ xs seed i, i + 1 < xs.length →
    ((interestBalancePass sav seed xs).getD (i + 1) dummyAm).interestBalance =
      ((interestBalancePass sav seed xs).getD i dummyAm).interestBalance -
        (if sav then -(xs.getD (i + 1) dummyAm).interestPaid
         else (xs.getD (i + 1) dummyAm).interestPaid) := by
  intro xs
  induction xs with
  | nil => intro seed i h; simp at h
  | cons a rest ih =>
    intro seed i h
    cases i with
    | zero =>
      match rest, h with
      | b :: rest2, _ => simp [interestBalancePass]
    | succ j =>
      simp only [interestBalancePass, List.getD_cons_succ]
      exact ih _ j (by simpa using h)

theorem interestBalancePass_last (sav : Bool) :
    ∀ xs seed, xs ≠ [] →
    ((interestBalancePass sav seed xs).getD
        ((interestBalancePass sav seed xs).length - 1) dummyAm).interestBalance =
      seed - (xs.map (fun a => if sav then -a.interestPaid else a.interestPaid)).sum := by
  intro xs
  induction xs with
  | nil => intro seed h; exact absurd rfl h
  | cons a rest ih =>
    intro seed _
    cases rest with
    | nil => simp [interestBalancePass]
    | cons b rest2 =>
      have hne : (b :: rest2) ≠ ([] : List AmortizationItem) := by simp
      have hunfold : interestBalancePass sav seed (a :: b :: rest2) =
          { a with interestBalance :=
              seed - (if sav then -a.interestPaid else a.interestPaid) } ::
            interestBalancePass sav
              (seed - (if sav then -a.interestPaid else a.interestPaid)) (b :: rest2) := rfl
      have hlen : 0 < (interestBalancePass sav
          (seed - (if sav then -a.interestPaid else a.interestPaid)) (b :: rest2)).length := by
        rw [interestBalancePass_length]; simp
      have hrec := ih (seed - (if sav then -a.interestPaid else a.interestPaid)) hne
      rw [hunfold]
      have hidx : ({ a with interestBalance :=
            seed - (if sav then -a.interestPaid else a.interestPaid) } ::
          interestBalancePass sav
            (seed - (if sav then -a.interestPaid else a.interestPaid)) (b :: rest2)).length - 1 =
          ((interestBalancePass sav
            (seed - (if sav then -a.interestPaid else a.interestPaid)) (b :: rest2)).length - 1) + 1 := by
        simp only [List.length_cons]
        omega
      rw [hidx, List.getD_cons_succ, hrec]
      simp only [List.map_cons, List.sum_cons]
      ring

theorem totalsFoldl_spec :
    ∀ (rest : List AmortizationItem) (acc : TotalsVal),
    ((rest.foldl (fun acc cur =>
        TotalsVal.pair (acc.repayment + cur.repayment)
          (acc.interestPaid + cur.interestPaid)) acc).repayment =
      acc.repayment + (rest.map AmortizationItem.repayment).sum) ∧
    ((rest.foldl (fun acc cur =>
        TotalsVal.pair (acc.repayment + cur.repayment)
          (acc.interestPaid + cur.interestPaid)) acc).interestPaid =
      acc.interestPaid + (rest.map AmortizationItem.interestPaid).sum) := by
  intro rest
  induction rest with
  | nil => intro acc; simp
  | cons b rest ih =>
    intro acc
    simp only [List.foldl_cons, List.map_cons, List.sum_cons]
    obtain ⟨h1, h2⟩ := ih (TotalsVal.pair (acc.repayment + b.repayment)
      (acc.interestPaid + b.interestPaid))
    refine ⟨?_, ?_⟩
    · rw [h1]; simp [TotalsVal.repayment]; ring
    · rw [h2]; simp [TotalsVal.interestPaid]; ring

theorem jsReduceTotals_spec (a : AmortizationItem) (rest : List AmortizationItem) :
    ∃ t, jsReduceTotals (a :: rest) = some t ∧
      t.repayment = ((a :: rest).map AmortizationItem.repayment).sum ∧
      t.interestPaid = ((a :: rest).map AmortizationItem.interestPaid).sum := by
  refine ⟨_, rfl, ?_, ?_⟩
  · have := (totalsFoldl_spec rest (TotalsVal.item a)).1
    simpa [TotalsVal.repayment] using this
  · have := (totalsFoldl_spec rest (TotalsVal.item a)).2
    simpa [TotalsVal.interestPaid] using this

theorem calculate_contextList (sav : Bool) (base : BaseCtx) (ops : ℕ → OpPatch) :
    (calculate sav base ops).contextList =
      initCtx base :: (loopList sav base ops).map Prod.fst := rfl

theorem calculate_totals (sav : Bool) (base : BaseCtx) (ops : ℕ → OpPatch) :
    (calculate sav base ops).totals =
      jsReduceTotals (initAm base :: (loopList sav base ops).map Prod.snd) := rfl

theorem calculate_amortizationList (sav : Bool) (base : BaseCtx) (ops : ℕ → OpPatch) :
    (calculate sav base ops).amortizationList =
      interestBalancePass sav
        (if sav then 0
         else (match jsReduceTotals (initAm base :: (loopList sav base ops).map Prod.snd) with
               | some t => t.interestPaid
               | none => 0))
        (initAm base :: (loopList sav base ops).map Prod.snd) := rfl

theorem getD_map_fst (l : List (ContextItem × AmortizationItem)) (j : ℕ)
    (h : j < l.length) :
    (l.map Prod.fst).getD j dummyCtx = (l.getD j (dummyCtx, dummyAm)).1 := by
  rw [List.getD_eq_getElem _ _ (by simpa using h), List.getElem_map,
    List.getD_eq_getElem _ _ h]

theorem getD_map_snd (l : List (ContextItem × AmortizationItem)) (j : ℕ)
    (h : j < l.length) :
    (l.map Prod.snd).getD j dummyAm = (l.getD j (dummyCtx, dummyAm)).2 := by
  rw [List.getD_eq_getElem _ _ (by simpa using h), List.getElem_map,
    List.getD_eq_getElem _ _ h]

theorem interestBalancePass_map_repayment (sav : Bool) :
    ∀ xs seed, (interestBalancePass sav seed xs).map AmortizationItem.repayment =
      xs.map AmortizationItem.repayment := by
  intro xs
  induction xs with
  | nil => intro seed; rfl
  | cons a rest ih => intro seed; simp [interestBalancePass, ih]

theorem interestBalancePass_map_interestPaid (sav : Bool) :
    ∀ xs seed, (interestBalancePass sav seed xs).map AmortizationItem.interestPaid =
      xs.map AmortizationItem.interestPaid := by
  intro xs
  induction xs with
  | nil => intro seed; rfl
  | cons a rest ih => intro seed; simp [interestBalancePass, ih]

theorem amortFromCtx_fee (sav : Bool) (c : ContextItem) (f : ℚ) :
    amortFromCtx sav { c with fee := f } =
      { amortFromCtx sav { c with fee := 0 } with
        repayment := (amortFromCtx sav { c with fee := 0 }).repayment + f } := by
  cases sav <;> simp [amortFromCtx]

theorem amortFromCtx_feeZero (sav : Bool) (c : ContextItem) :
    amortFromCtx sav { c with fee := 0 } =
      { amortFromCtx sav c with
        repayment := (amortFromCtx sav c).repayment - c.fee } := by
  have h := amortFromCtx_fee sav c c.fee
  have heta : ({ c with fee := c.fee } : ContextItem) = c := rfl
  rw [heta] at h
  rw [h]
  simp

theorem calculateRepayment_fee (c : ContextItem) (f : ℚ) :
    calculateRepayment { c with fee := f } = calculateRepayment c := by
  simp [calculateRepayment]

theorem calculateContextAt_feeFree (base : BaseCtx) (ops : ℕ → OpPatch)
    (cur : ℕ) (bal : ℚ) :
    calculateContextAt base (feeFree ops) cur bal =
      { calculateContextAt base ops cur bal with fee := 0 } := by
  simp [calculateContextAt, applyPatch, feeFree, baseContextItem]

theorem calculateAmortizationAt_feeFree (sav : Bool) (pc pc0 c : ContextItem)
    (h1 : pc0.effInterestRate = pc.effInterestRate)
    (h2 : pc0.repayment = pc.repayment) :
    calculateAmortizationAt sav pc0 { c with fee := 0 } =
      stripFee (calculateAmortizationAt sav pc c) := by
  unfold calculateAmortizationAt stripFee
  simp only [h1, h2, calculateRepayment_fee c 0]
  by_cases hcond : sav = false ∧ (c.period = 1 ∨ pc.effInterestRate ≠ c.effInterestRate)
  · rw [if_pos hcond]
    refine Prod.ext rfl ?_
    exact amortFromCtx_feeZero sav { c with repayment := calculateRepayment c }
  · rw [if_neg hcond]
    refine Prod.ext rfl ?_
    exact amortFromCtx_feeZero sav { c with repayment := pc.repayment }

theorem stepPair_feeFree (sav : Bool) (base : BaseCtx) (ops : ℕ → OpPatch)
    (prev prev0 : ContextItem × AmortizationItem) (cur : ℕ)
    (h1 : prev0.1.effInterestRate = prev.1.effInterestRate)
    (h2 : prev0.1.repayment = prev.1.repayment)
    (h3 : prev0.2.principalBalance = prev.2.principalBalance) :
    stepPair sav base (feeFree ops) prev0 cur = stripFee (stepPair sav base ops prev cur) := by
  unfold stepPair
  rw [h3, calculateContextAt_feeFree]
  exact calculateAmortizationAt_feeFree sav prev.1 prev0.1 _ h1 h2

theorem calcLoop_feeFree (sav : Bool) (base : BaseCtx) (ops : ℕ → OpPatch) :
    ∀ rem cur prev prev0,
    prev0.1.effInterestRate = prev.1.effInterestRate →
    prev0.1.repayment = prev.1.repayment →
    prev0.2.principalBalance = prev.2.principalBalance →
    calcLoop sav base (feeFree ops) prev0 cur rem =
      (calcLoop sav base ops prev cur rem).map stripFee := by
  intro rem
  induction rem with
  | zero => intro cur prev prev0 _ _ _; rfl
  | succ rem ih =>
    intro cur prev prev0 h1 h2 h3
    rw [calcLoop_succ_eq, calcLoop_succ_eq, List.map_cons,
      stepPair_feeFree sav base ops prev prev0 cur h1 h2 h3]
    have hbal : (stripFee (stepPair sav base ops prev cur)).2.principalBalance =
        (stepPair sav base ops prev cur).2.principalBalance := rfl
    rw [hbal]
    by_cases hc : sav = false ∧ (stepPair sav base ops prev cur).2.principalBalance ≤ 0
    · rw [if_pos hc, if_pos hc]; rfl
    · rw [if_neg hc, if_neg hc]
      congr 1
      exact ih (cur + 1) (stepPair sav base ops prev cur)
        (stripFee (stepPair sav base ops prev cur)) rfl rfl rfl

theorem getD_map_stripFee (l : List (ContextItem × AmortizationItem)) (j : ℕ)
    (h : j < l.length) :
    (l.map stripFee).getD j (dummyCtx, dummyAm) =
      stripFee (l.getD j (dummyCtx, dummyAm)) := by
  rw [List.getD_eq_getElem _ _ (by simpa using h), List.getElem_map,
    List.getD_eq_getElem _ _ h]

theorem loopList_feeFree (sav : Bool) (base : BaseCtx) (ops : ℕ → OpPatch) :
    loopList sav base (feeFree ops) = (loopList sav base ops).map stripFee :=
  calcLoop_feeFree sav base ops base.effTerm 1 (initCtx base, initAm base)
    (initCtx base, initAm base) rfl rfl rfl

/-- Claim C7: for every period the fee is added to the reported repayment
only after the interest/principal split and the closing balance are computed.
Per period (first conjunct): with the same stored context, `interestPaid`,
`principalPaid` and `principalBalance` are identical whether the fee is `0`
or any other value, and the reported repayment moves by exactly the fee.
Per run (second conjunct): stripping every fee write from the operator set
leaves the whole amortization list's `interestPaid`, `principalPaid` and
`principalBalance` columns unchanged (so only the `repayment` column, and
hence `totals.repayment`, can change, each period by exactly its context's
fee), and `totals.interestPaid` is unchanged. -/
theorem claim_C7_fee_after_split :
    (∀ (sav : Bool) (c : ContextItem) (f : ℚ),
      (amortFromCtx sav { c with fee := f }).interestPaid =
        (amortFromCtx sav { c with fee := 0 }).interestPaid ∧
      (amortFromCtx sav { c with fee := f }).principalPaid =
        (amortFromCtx sav { c with fee := 0 }).principalPaid ∧
      (amortFromCtx sav { c with fee := f }).principalBalance =
        (amortFromCtx sav { c with fee := 0 }).principalBalance ∧
      (amortFromCtx sav { c with fee := f }).repayment =
        (amortFromCtx sav { c with fee := 0 }).repayment + f) ∧
    (∀ (sav : Bool) (base : BaseCtx) (ops : ℕ → OpPatch),
      (calculate sav base (feeFree ops)).amortizationList.length =
        (calculate sav base ops).amortizationList.length ∧
      (∃ t t0, (calculate sav base ops).totals = some t ∧
        (calculate sav base (feeFree ops)).totals = some t0 ∧
        t0.interestPaid = t.interestPaid) ∧
      (∀ i, i < (calculate sav base ops).amortizationList.length →
        ((calculate sav base (feeFree ops)).amortizationList.getD i dummyAm).interestPaid =
          ((calculate sav base ops).amortizationList.getD i dummyAm).interestPaid ∧
        ((calculate sav base (feeFree ops)).amortizationList.getD i dummyAm).principalPaid =
          ((calculate sav base ops).amortizationList.getD i dummyAm).principalPaid ∧
        ((calculate sav base (feeFree ops)).amortizationList.getD i dummyAm).principalBalance =
          ((calculate sav base ops).amortizationList.getD i dummyAm).principalBalance ∧
        ((calculate sav base ops).amortizationList.getD i dummyAm).repayment =
          ((calculate sav base (feeFree ops)).amortizationList.getD i dummyAm).repayment +
            ((calculate sav base ops).contextList.getD i dummyCtx).fee)) := by
  constructor
  · intro sav c f
    rw [amortFromCtx_fee sav c f]
    exact ⟨rfl, rfl, rfl, rfl⟩
  · intro sav base ops
    have hl : loopList sav base (feeFree ops) = (loopList sav base ops).map stripFee :=
      loopList_feeFree sav base ops
    have hip : ((initAm base :: ((loopList sav base ops).map stripFee).map Prod.snd).map
        AmortizationItem.interestPaid) =
        ((initAm base :: (loopList sav base ops).map Prod.snd).map
          AmortizationItem.interestPaid) := by
      simp only [List.map_cons, List.map_map]
      congr 1
    obtain ⟨t, ht, htr, hti⟩ := jsReduceTotals_spec (initAm base)
      ((loopList sav base ops).map Prod.snd)
    obtain ⟨t0, ht0, htr0, hti0⟩ := jsReduceTotals_spec (initAm base)
      (((loopList sav base ops).map stripFee).map Prod.snd)
    have htieq : t0.interestPaid = t.interestPaid := by
      rw [hti0, hti]
      exact congrArg List.sum hip
    have hseed : (if sav then 0
        else (match jsReduceTotals (initAm base ::
          (loopList sav base (feeFree ops)).map Prod.snd) with
          | some t => t.interestPaid | none => 0)) =
        (if sav then 0
        else (match jsReduceTotals (initAm base ::
          (loopList sav base ops).map Prod.snd) with
          | some t => t.interestPaid | none => 0)) := by
      rw [hl, ht0, ht]
      simp [htieq]
    refine ⟨?_, ⟨t, t0, ht, by rw [calculate_totals, hl]; exact ht0, htieq⟩, ?_⟩
    · rw [calculate_amortizationList, calculate_amortizationList,
        interestBalancePass_length, interestBalancePass_length, hl]
      simp
    · intro i hilen
      have hlen0 : i < (initAm base :: (loopList sav base ops).map Prod.snd).length := by
        rw [calculate_amortizationList, interestBalancePass_length] at hilen
        exact hilen
      have hlen1 : i < (initAm base ::
          ((loopList sav base ops).map stripFee).map Prod.snd).length := by
        simpa using hlen0
      have hf0 := interestBalancePass_fields sav
        (initAm base :: ((loopList sav base ops).map stripFee).map Prod.snd)
        (if sav then 0
          else (match jsReduceTotals (initAm base ::
            (loopList sav base (feeFree ops)).map Prod.snd) with
            | some t => t.interestPaid | none => 0)) i hlen1
      have hf1 := interestBalancePass_fields sav
        (initAm base :: (loopList sav base ops).map Prod.snd)
        (if sav then 0
          else (match jsReduceTotals (initAm base ::
            (loopList sav base ops).map Prod.snd) with
            | some t => t.interestPaid | none => 0)) i hlen0
      have hams0 : (calculate sav base (feeFree ops)).amortizationList =
          interestBalancePass sav
            (if sav then 0
              else (match jsReduceTotals (initAm base ::
                (loopList sav base (feeFree ops)).map Prod.snd) with
                | some t => t.interestPaid | none => 0))
            (initAm base :: ((loopList sav base ops).map stripFee).map Prod.snd) := by
        rw [calculate_amortizationList, hl]
      have hams1 : (calculate sav base ops).amortizationList =
          interestBalancePass sav
            (if sav then 0
              else (match jsReduceTotals (initAm base ::
                (loopList sav base ops).map Prod.snd) with
                | some t => t.interestPaid | none => 0))
            (initAm base :: (loopList sav base ops).map Prod.snd) := by
        rw [calculate_amortizationList]
      rw [hams0, hams1, calculate_contextList]
      rw [hf0.2.2.1, hf1.2.2.1, hf0.2.2.2.1, hf1.2.2.2.1, hf0.2.1, hf1.2.1,
        hf0.2.2.2.2, hf1.2.2.2.2]
      cases i with
      | zero =>
        simp [initAm, initCtx, baseContextItem]
      | succ j =>
        have hj : j < (loopList sav base ops).length := by
          simp only [List.length_cons, List.length_map] at hlen0
          omega
        simp only [List.getD_cons_succ]
        rw [getD_map_snd _ _ (by simpa using hj), getD_map_stripFee _ _ hj,
          getD_map_snd _ _ hj, getD_map_fst _ _ hj]
        refine ⟨rfl, rfl, rfl, ?_⟩
        show (((loopList sav base ops).getD j (dummyCtx, dummyAm)).2).repayment =
          ((((loopList sav base ops).getD j (dummyCtx, dummyAm)).2).repayment -
            (((loopList sav base ops).getD j (dummyCtx, dummyAm)).1).fee) +
            (((loopList sav base ops).getD j (dummyCtx, dummyAm)).1).fee
        ring

/-- Claim C8: at every point of a run both lists stay in lockstep — the
returned lists (and, since the loop only ever appends one entry to each per
iteration, every intermediate prefix) have equal length, both start with a
period-0 entry, and entries at equal indices carry equal periods. -/
theorem claim_C8_alignment (sav : Bool) (base : BaseCtx) (ops : ℕ → OpPatch) :
    (calculate sav base ops).contextList.length =
      (calculate sav base ops).amortizationList.length ∧
    0 < (calculate sav base ops).contextList.length ∧
    ((calculate sav base ops).contextList.getD 0 dummyCtx).period = 0 ∧
    ((calculate sav base ops).amortizationList.getD 0 dummyAm).period = 0 ∧
    (∀ i, i < (calculate sav base ops).contextList.length →
      ((calculate sav base ops).contextList.getD i dummyCtx).period =
        ((calculate sav base ops).amortizationList.getD i dummyAm).period) := by
  have hlen : (calculate sav base ops).amortizationList.length =
      1 + (loopList sav base ops).length := by
    rw [calculate_amortizationList, interestBalancePass_length]
    simp [Nat.add_comm]
  have hlenc : (calculate sav base ops).contextList.length =
      1 + (loopList sav base ops).length := by
    rw [calculate_contextList]
    simp [Nat.add_comm]
  have hfields := fun i hi => interestBalancePass_fields sav
    (initAm base :: (loopList sav base ops).map Prod.snd)
    (if sav then 0
      else (match jsReduceTotals (initAm base ::
        (loopList sav base ops).map Prod.snd) with
        | some t => t.interestPaid | none => 0)) i hi
  refine ⟨hlenc.trans hlen.symm, by omega, ?_, ?_, ?_⟩
  · rw [calculate_contextList]
    simp [initCtx, baseContextItem]
  · rw [calculate_amortizationList]
    have := (hfields 0 (by simp)).1
    rw [this]
    simp [initAm]
  · intro i hi
    rw [calculate_amortizationList, (hfields i (by
      simp only [List.length_cons, List.length_map]
      omega)).1]
    rw [calculate_contextList]
    cases i with
    | zero => simp [initCtx, baseContextItem, initAm]
    | succ j =>
      have hj : j < (loopList sav base ops).length := by
        rw [hlenc] at hi; omega
      simp only [List.getD_cons_succ]
      rw [getD_map_fst _ _ hj, getD_map_snd _ _ hj]
      have hper : ((loopList sav base ops).getD j (dummyCtx, dummyAm)).1.period = 1 + j ∧
          ((loopList sav base ops).getD j (dummyCtx, dummyAm)).2.period = 1 + j :=
        calcLoop_periods sav base ops (dummyCtx, dummyAm)
          base.effTerm 1 (initCtx base, initAm base) j hj
      rw [hper.1, hper.2]

theorem claim_C8_witness :
    (calculate false ⟨100, 1/10, 2, 0, RepaymentType.principalAndInterest⟩
        noOps).contextList.length =
      (calculate false ⟨100, 1/10, 2, 0, RepaymentType.principalAndInterest⟩
        noOps).amortizationList.length :=
  (claim_C8_alignment false ⟨100, 1/10, 2, 0, RepaymentType.principalAndInterest⟩ noOps).1

/-- Claim C4: the returned totals sum the `repayment` and `interestPaid`
columns over the full returned amortization list, period-0 entry included —
and that entry contributes `0` to both sums. -/
theorem claim_C4_totals (sav : Bool) (base : BaseCtx) (ops : ℕ → OpPatch) :
    ∃ t, (calculate sav base ops).totals = some t ∧
      t.repayment =
        ((calculate sav base ops).amortizationList.map AmortizationItem.repayment).sum ∧
      t.interestPaid =
        ((calculate sav base ops).amortizationList.map AmortizationItem.interestPaid).sum ∧
      ((calculate sav base ops).amortizationList.getD 0 dummyAm).repayment = 0 ∧
      ((calculate sav base ops).amortizationList.getD 0 dummyAm).interestPaid = 0 := by
  obtain ⟨t, ht, htr, hti⟩ := jsReduceTotals_spec (initAm base)
    ((loopList sav base ops).map Prod.snd)
  have hfields := interestBalancePass_fields sav
    (initAm base :: (loopList sav base ops).map Prod.snd)
    (if sav then 0
      else (match jsReduceTotals (initAm base ::
        (loopList sav base ops).map Prod.snd) with
        | some t => t.interestPaid | none => 0)) 0 (by simp)
  refine ⟨t, ht, ?_, ?_, ?_, ?_⟩
  · rw [calculate_amortizationList, interestBalancePass_map_repayment]
    exact htr
  · rw [calculate_amortizationList, interestBalancePass_map_interestPaid]
    exact hti
  · rw [calculate_amortizationList, hfields.2.2.2.2]
    simp [initAm]
  · rw [calculate_amortizationList, hfields.2.2.1]
    simp [initAm]

/-- Claim C9: with a zero effective term the loop body never runs; the run
returns just the period-0 entries, and the seedless JS reduce makes `totals`
the period-0 `AmortizationItem` itself, whose `repayment` and `interestPaid`
are `0` but which also carries `period`, `principalPaid`, `interestBalance`
and `principalBalance` (the latter equal to the opening principal). -/
theorem claim_C9_degenerate (sav : Bool) (base : BaseCtx) (ops : ℕ → OpPatch)
    (h : base.effTerm = 0) :
    (calculate sav base ops).contextList = [initCtx base] ∧
    (calculate sav base ops).amortizationList = [initAm base] ∧
    (calculate sav base ops).totals = some (TotalsVal.item (initAm base)) ∧
    TotalsVal.repayment (TotalsVal.item (initAm base)) = 0 ∧
    TotalsVal.interestPaid (TotalsVal.item (initAm base)) = 0 ∧
    (initAm base).period = 0 ∧
    (initAm base).principalPaid = 0 ∧
    (initAm base).interestBalance = 0 ∧
    (initAm base).principalBalance = base.principal := by
  have hll : loopList sav base ops = [] := by
    rw [loopList, h]
    rfl
  refine ⟨?_, ?_, ?_, rfl, rfl, rfl, rfl, rfl, rfl⟩
  · rw [calculate_contextList, hll]
    rfl
  · rw [calculate_amortizationList, hll]
    cases sav <;> simp [interestBalancePass, jsReduceTotals, TotalsVal.interestPaid, initAm]
  · rw [calculate_totals, hll]
    rfl

theorem claim_C9_witness :
    (calculate false ⟨500, 1/20, 0, 7, RepaymentType.principalAndInterest⟩
        noOps).contextList =
      [initCtx ⟨500, 1/20, 0, 7, RepaymentType.principalAndInterest⟩] ∧
    (calculate false ⟨500, 1/20, 0, 7, RepaymentType.principalAndInterest⟩
        noOps).amortizationList =
      [initAm ⟨500, 1/20, 0, 7, RepaymentType.principalAndInterest⟩] ∧
    (calculate false ⟨500, 1/20, 0, 7, RepaymentType.principalAndInterest⟩
        noOps).totals =
      some (TotalsVal.item (initAm ⟨500, 1/20, 0, 7, RepaymentType.principalAndInterest⟩)) ∧
    TotalsVal.repayment
      (TotalsVal.item (initAm ⟨500, 1/20, 0, 7, RepaymentType.principalAndInterest⟩)) = 0 ∧
    TotalsVal.interestPaid
      (TotalsVal.item (initAm ⟨500, 1/20, 0, 7, RepaymentType.principalAndInterest⟩)) = 0 ∧
    (initAm ⟨500, 1/20, 0, 7, RepaymentType.principalAndInterest⟩).period = 0 ∧
    (initAm ⟨500, 1/20, 0, 7, RepaymentType.principalAndInterest⟩).principalPaid = 0 ∧
    (initAm ⟨500, 1/20, 0, 7, RepaymentType.principalAndInterest⟩).interestBalance = 0 ∧
    (initAm ⟨500, 1/20, 0, 7, RepaymentType.principalAndInterest⟩).principalBalance = 500 :=
  claim_C9_degenerate false ⟨500, 1/20, 0, 7, RepaymentType.principalAndInterest⟩ noOps rfl

theorem calculateContextAt_period (base : BaseCtx) (ops : ℕ → OpPatch)
    (cur : ℕ) (bal : ℚ) :
    (calculateContextAt base ops cur bal).period = cur := by
  simp [calculateContextAt, applyPatch, baseContextItem]

theorem stepPair_fst (sav : Bool) (base : BaseCtx) (ops : ℕ → OpPatch)
    (prev : ContextItem × AmortizationItem) (cur : ℕ) :
    (stepPair sav base ops prev cur).1 =
      { calculateContextAt base ops cur prev.2.principalBalance with
        repayment :=
          if sav = false ∧
              ((calculateContextAt base ops cur prev.2.principalBalance).period = 1 ∨
                prev.1.effInterestRate ≠
                  (calculateContextAt base ops cur prev.2.principalBalance).effInterestRate)
          then calculateRepayment (calculateContextAt base ops cur prev.2.principalBalance)
          else prev.1.repayment } := rfl

theorem loopList_getD (sav : Bool) (base : BaseCtx) (ops : ℕ → OpPatch) (j : ℕ)
    (hj : j < (loopList sav base ops).length) :
    (loopList sav base ops).getD j (dummyCtx, dummyAm) =
      stepPair sav base ops
        (if j = 0 then (initCtx base, initAm base)
         else (loopList sav base ops).getD (j - 1) (dummyCtx, dummyAm)) (j + 1) := by
  cases j with
  | zero =>
    rw [if_pos rfl]
    exact calcLoop_getD_zero sav base ops (initCtx base, initAm base) 1 base.effTerm
      (dummyCtx, dummyAm) hj
  | succ k =>
    rw [if_neg (Nat.succ_ne_zero k)]
    have h := calcLoop_chain sav base ops (dummyCtx, dummyAm) base.effTerm 1
      (initCtx base, initAm base) k hj
    have harith : 1 + k + 1 = k + 1 + 1 := by omega
    rw [harith] at h
    simpa using h

theorem loopList_repayment_rule (sav : Bool) (base : BaseCtx) (ops : ℕ → OpPatch)
    (j : ℕ) (hj : j < (loopList sav base ops).length) :
    ((loopList sav base ops).getD j (dummyCtx, dummyAm)).1.repayment =
      if sav = false ∧ (j + 1 = 1 ∨
          (if j = 0 then (initCtx base, initAm base)
           else (loopList sav base ops).getD (j - 1)
            (dummyCtx, dummyAm)).1.effInterestRate ≠
            ((loopList sav base ops).getD j (dummyCtx, dummyAm)).1.effInterestRate)
      then (if ((loopList sav base ops).getD j (dummyCtx, dummyAm)).1.repaymentType =
              RepaymentType.interestOnly
            then ((loopList sav base ops).getD j (dummyCtx, dummyAm)).1.principal *
              ((loopList sav base ops).getD j (dummyCtx, dummyAm)).1.effInterestRate
            else pmt ((loopList sav base ops).getD j (dummyCtx, dummyAm)).1.principal
              ((loopList sav base ops).getD j (dummyCtx, dummyAm)).1.effInterestRate
              ((((loopList sav base ops).getD j (dummyCtx, dummyAm)).1.effTerm - (j + 1)) + 1))
      else (if j = 0 then (initCtx base, initAm base)
            else (loopList sav base ops).getD (j - 1) (dummyCtx, dummyAm)).1.repayment := by
  rw [loopList_getD sav base ops j hj, stepPair_fst]
  simp only [calculateContextAt_period, calculateRepayment]

theorem calculate_contextList_getD_succ (sav : Bool) (base : BaseCtx)
    (ops : ℕ → OpPatch) (j : ℕ) (hj : j < (loopList sav base ops).length) :
    (calculate sav base ops).contextList.getD (j + 1) dummyCtx =
      ((loopList sav base ops).getD j (dummyCtx, dummyAm)).1 := by
  rw [calculate_contextList]
  simp only [List.getD_cons_succ]
  exact getD_map_fst _ _ hj

theorem calculate_contextList_getD_zero (sav : Bool) (base : BaseCtx)
    (ops : ℕ → OpPatch) :
    (calculate sav base ops).contextList.getD 0 dummyCtx = initCtx base := by
  rw [calculate_contextList]
  simp

theorem loopList_fst_period (sav : Bool) (base : BaseCtx) (ops : ℕ → OpPatch)
    (j : ℕ) (hj : j < (loopList sav base ops).length) :
    ((loopList sav base ops).getD j (dummyCtx, dummyAm)).1.period = j + 1 := by
  have h : ((loopList sav base ops).getD j (dummyCtx, dummyAm)).1.period = 1 + j :=
    (calcLoop_periods sav base ops (dummyCtx, dummyAm) base.effTerm 1
      (initCtx base, initAm base) j hj).1
  omega

/-- Claim C2: for every period `i ≥ 1` the stored scheduled repayment is the
previous context's carried-forward repayment, except that in loan mode at
period 1, or when the period's effective rate differs from the previous
period's, it is recomputed — interest-only as `principal * effInterestRate`,
otherwise as the annuity payment over `effTerm - i + 1` remaining periods;
in savings mode it is never recomputed and always equals the originally
configured repayment. -/
theorem claim_C2_repayment_rule (sav : Bool) (base : BaseCtx) (ops : ℕ → OpPatch)
    (i : ℕ) (h1 : 1 ≤ i) (h2 : i < (calculate sav base ops).contextList.length) :
    ((calculate sav base ops).contextList.getD i dummyCtx).period = i ∧
    ((calculate sav base ops).contextList.getD i dummyCtx).repayment =
      (if sav = false ∧ (i = 1 ∨
          ((calculate sav base ops).contextList.getD (i - 1) dummyCtx).effInterestRate ≠
            ((calculate sav base ops).contextList.getD i dummyCtx).effInterestRate)
       then (if ((calculate sav base ops).contextList.getD i dummyCtx).repaymentType =
                RepaymentType.interestOnly
             then ((calculate sav base ops).contextList.getD i dummyCtx).principal *
               ((calculate sav base ops).contextList.getD i dummyCtx).effInterestRate
             else pmt ((calculate sav base ops).contextList.getD i dummyCtx).principal
               ((calculate sav base ops).contextList.getD i dummyCtx).effInterestRate
               ((((calculate sav base ops).contextList.getD i dummyCtx).effTerm - i) + 1))
       else ((calculate sav base ops).contextList.getD (i - 1) dummyCtx).repayment) ∧
    (sav = true →
      ((calculate sav base ops).contextList.getD i dummyCtx).repayment = base.repayment) := by
  obtain ⟨j, rfl⟩ : ∃ j, i = j + 1 := ⟨i - 1, by omega⟩
  have hj : j < (loopList sav base ops).length := by
    rw [calculate_contextList] at h2
    simp only [List.length_cons, List.length_map] at h2
    omega
  have hcs := calculate_contextList_getD_succ sav base ops j hj
  have hprev : (calculate sav base ops).contextList.getD (j + 1 - 1) dummyCtx =
      (if j = 0 then (initCtx base, initAm base)
       else (loopList sav base ops).getD (j - 1) (dummyCtx, dummyAm)).1 := by
    simp only [Nat.add_sub_cancel]
    cases j with
    | zero =>
      rw [if_pos rfl]
      exact calculate_contextList_getD_zero sav base ops
    | succ k =>
      rw [if_neg (Nat.succ_ne_zero k)]
      simp only [Nat.succ_sub_one]
      exact calculate_contextList_getD_succ sav base ops k (Nat.lt_of_succ_lt hj)
  refine ⟨?_, ?_, ?_⟩
  · rw [hcs]
    exact loopList_fst_period sav base ops j hj
  · rw [hcs, hprev]
    exact loopList_repayment_rule sav base ops j hj
  · intro hsav
    subst hsav
    rw [hcs]
    exact calcLoop_savings_repayment base ops (dummyCtx, dummyAm) base.effTerm 1
      (initCtx base, initAm base) rfl j hj

theorem claim_C2_witness :
    ((calculate false ⟨100, 0, 2, 0, RepaymentType.principalAndInterest⟩
        noOps).contextList.getD 1 dummyCtx).period = 1 :=
  (claim_C2_repayment_rule false ⟨100, 0, 2, 0, RepaymentType.principalAndInterest⟩
    noOps 1 (by norm_num)
    (by norm_num [calculate, loopList, calcLoop, stepPair, calculateAmortizationAt,
      calculateContextAt, applyPatch, baseContextItem, calculateRepayment, pmt,
      amortFromCtx, initCtx, initAm, noOps])).1

theorem calculate_amortization_getD_succ (sav : Bool) (base : BaseCtx)
    (ops : ℕ → OpPatch) (j : ℕ) (hj : j < (loopList sav base ops).length) :
    ((calculate sav base ops).amortizationList.getD (j + 1) dummyAm).period =
      ((loopList sav base ops).getD j (dummyCtx, dummyAm)).2.period ∧
    ((calculate sav base ops).amortizationList.getD (j + 1) dummyAm).principalBalance =
      ((loopList sav base ops).getD j (dummyCtx, dummyAm)).2.principalBalance ∧
    ((calculate sav base ops).amortizationList.getD (j + 1) dummyAm).interestPaid =
      ((loopList sav base ops).getD j (dummyCtx, dummyAm)).2.interestPaid ∧
    ((calculate sav base ops).amortizationList.getD (j + 1) dummyAm).principalPaid =
      ((loopList sav base ops).getD j (dummyCtx, dummyAm)).2.principalPaid ∧
    ((calculate sav base ops).amortizationList.getD (j + 1) dummyAm).repayment =
      ((loopList sav base ops).getD j (dummyCtx, dummyAm)).2.repayment := by
  have hlen : j + 1 < (initAm base :: (loopList sav base ops).map Prod.snd).length := by
    simp only [List.length_cons, List.length_map]
    omega
  have hfields := interestBalancePass_fields sav
    (initAm base :: (loopList sav base ops).map Prod.snd)
    (if sav then 0
      else (match jsReduceTotals (initAm base ::
        (loopList sav base ops).map Prod.snd) with
        | some t => t.interestPaid | none => 0)) (j + 1) hlen
  rw [calculate_amortizationList]
  refine ⟨?_, ?_, ?_, ?_, ?_⟩
  · rw [hfields.1]
    simp only [List.getD_cons_succ]
    exact congrArg AmortizationItem.period (getD_map_snd _ _ hj)
  · rw [hfields.2.1]
    simp only [List.getD_cons_succ]
    exact congrArg AmortizationItem.principalBalance (getD_map_snd _ _ hj)
  · rw [hfields.2.2.1]
    simp only [List.getD_cons_succ]
    exact congrArg AmortizationItem.interestPaid (getD_map_snd _ _ hj)
  · rw [hfields.2.2.2.1]
    simp only [List.getD_cons_succ]
    exact congrArg AmortizationItem.principalPaid (getD_map_snd _ _ hj)
  · rw [hfields.2.2.2.2]
    simp only [List.getD_cons_succ]
    exact congrArg AmortizationItem.repayment (getD_map_snd _ _ hj)

/-- Claim C1 (amended): in loan mode, for every period of the run, the
adjusted repayment (stored scheduled repayment plus `effExtraRepayment` plus
`lumpSum`, before fee) is clamped exactly when it exceeds the opening
`principal` alone — not `principal + interestPaid` — and when clamped it is
set to exactly `principal + interestPaid`; then
`principalPaid = repayment - interestPaid` (pre-fee) and
`principalBalance = principal - principalPaid`. -/
theorem claim_C1_amended_clamp (base : BaseCtx) (ops : ℕ → OpPatch) (i : ℕ)
    (h1 : 1 ≤ i) (h2 : i < (calculate false base ops).amortizationList.length) :
    ((calculate false base ops).amortizationList.getD i dummyAm).interestPaid =
      max ((((calculate false base ops).contextList.getD i dummyCtx).principal -
        ((calculate false base ops).contextList.getD i dummyCtx).offset) *
        ((calculate false base ops).contextList.getD i dummyCtx).effInterestRate) 0 ∧
    ((calculate false base ops).amortizationList.getD i dummyAm).repayment =
      (if ((calculate false base ops).contextList.getD i dummyCtx).principal <
          ((calculate false base ops).contextList.getD i dummyCtx).repayment +
            ((calculate false base ops).contextList.getD i dummyCtx).effExtraRepayment +
            ((calculate false base ops).contextList.getD i dummyCtx).lumpSum
       then ((calculate false base ops).contextList.getD i dummyCtx).principal +
         ((calculate false base ops).amortizationList.getD i dummyAm).interestPaid
       else ((calculate false base ops).contextList.getD i dummyCtx).repayment +
         ((calculate false base ops).contextList.getD i dummyCtx).effExtraRepayment +
         ((calculate false base ops).contextList.getD i dummyCtx).lumpSum) +
      ((calculate false base ops).contextList.getD i dummyCtx).fee ∧
    ((calculate false base ops).amortizationList.getD i dummyAm).principalPaid =
      (if ((calculate false base ops).contextList.getD i dummyCtx).principal <
          ((calculate false base ops).contextList.getD i dummyCtx).repayment +
            ((calculate false base ops).contextList.getD i dummyCtx).effExtraRepayment +
            ((calculate false base ops).contextList.getD i dummyCtx).lumpSum
       then ((calculate false base ops).contextList.getD i dummyCtx).principal +
         ((calculate false base ops).amortizationList.getD i dummyAm).interestPaid
       else ((calculate false base ops).contextList.getD i dummyCtx).repayment +
         ((calculate false base ops).contextList.getD i dummyCtx).effExtraRepayment +
         ((calculate false base ops).contextList.getD i dummyCtx).lumpSum) -
      ((calculate false base ops).amortizationList.getD i dummyAm).interestPaid ∧
    ((calculate false base ops).amortizationList.getD i dummyAm).principalBalance =
      ((calculate false base ops).contextList.getD i dummyCtx).principal -
      ((calculate false base ops).amortizationList.getD i dummyAm).principalPaid := by
  obtain ⟨j, rfl⟩ : ∃ j, i = j + 1 := ⟨i - 1, by omega⟩
  have hj : j < (loopList false base ops).length := by
    rw [calculate_amortizationList, interestBalancePass_length] at h2
    simp only [List.length_cons, List.length_map] at h2
    omega
  obtain ⟨hp, hb, hip, hpp, hr⟩ := calculate_amortization_getD_succ false base ops j hj
  have hctx := calculate_contextList_getD_succ false base ops j hj
  have hamort : ((loopList false base ops).getD j (dummyCtx, dummyAm)).2 =
      amortFromCtx false ((loopList false base ops).getD j (dummyCtx, dummyAm)).1 :=
    calcLoop_snd_amort false base ops (initCtx base, initAm base) 1
      base.effTerm (dummyCtx, dummyAm) j hj
  rw [hip, hb, hpp, hr, hctx, hamort]
  refine ⟨rfl, ?_, ?_, ?_⟩ <;> simp [amortFromCtx]

theorem claim_C1_counterexample :
    ((calculate false ⟨100, 1/10, 1, 0, RepaymentType.interestOnly⟩
        (fun _ => { lumpSum := some 95 })).contextList.getD 1 dummyCtx).repayment +
      ((calculate false ⟨100, 1/10, 1, 0, RepaymentType.interestOnly⟩
        (fun _ => { lumpSum := some 95 })).contextList.getD 1 dummyCtx).effExtraRepayment +
      ((calculate false ⟨100, 1/10, 1, 0, RepaymentType.interestOnly⟩
        (fun _ => { lumpSum := some 95 })).contextList.getD 1 dummyCtx).lumpSum ≤
      ((calculate false ⟨100, 1/10, 1, 0, RepaymentType.interestOnly⟩
        (fun _ => { lumpSum := some 95 })).contextList.getD 1 dummyCtx).principal +
      ((calculate false ⟨100, 1/10, 1, 0, RepaymentType.interestOnly⟩
        (fun _ => { lumpSum := some 95 })).amortizationList.getD 1 dummyAm).interestPaid ∧
    ((calculate false ⟨100, 1/10, 1, 0, RepaymentType.interestOnly⟩
        (fun _ => { lumpSum := some 95 })).amortizationList.getD 1 dummyAm).repayment ≠
      ((calculate false ⟨100, 1/10, 1, 0, RepaymentType.interestOnly⟩
        (fun _ => { lumpSum := some 95 })).contextList.getD 1 dummyCtx).repayment +
      ((calculate false ⟨100, 1/10, 1, 0, RepaymentType.interestOnly⟩
        (fun _ => { lumpSum := some 95 })).contextList.getD 1 dummyCtx).effExtraRepayment +
      ((calculate false ⟨100, 1/10, 1, 0, RepaymentType.interestOnly⟩
        (fun _ => { lumpSum := some 95 })).contextList.getD 1 dummyCtx).lumpSum +
      ((calculate false ⟨100, 1/10, 1, 0, RepaymentType.interestOnly⟩
        (fun _ => { lumpSum := some 95 })).contextList.getD 1 dummyCtx).fee := by
  norm_num [calculate, loopList, calcLoop, stepPair, calculateAmortizationAt,
    calculateContextAt, applyPatch, baseContextItem, calculateRepayment, pmt,
    amortFromCtx, initCtx, initAm, interestBalancePass, jsReduceTotals]

theorem claim_C1_witness :
    ((calculate false ⟨100, 0, 2, 0, RepaymentType.principalAndInterest⟩
        noOps).amortizationList.getD 1 dummyAm).interestPaid =
      max ((((calculate false ⟨100, 0, 2, 0, RepaymentType.principalAndInterest⟩
          noOps).contextList.getD 1 dummyCtx).principal -
        ((calculate false ⟨100, 0, 2, 0, RepaymentType.principalAndInterest⟩
          noOps).contextList.getD 1 dummyCtx).offset) *
        ((calculate false ⟨100, 0, 2, 0, RepaymentType.principalAndInterest⟩
          noOps).contextList.getD 1 dummyCtx).effInterestRate) 0 :=
  (claim_C1_amended_clamp ⟨100, 0, 2, 0, RepaymentType.principalAndInterest⟩ noOps 1
    (by norm_num)
    (by norm_num [calculate, loopList, calcLoop, stepPair, calculateAmortizationAt,
      calculateContextAt, applyPatch, baseContextItem, calculateRepayment, pmt,
      amortFromCtx, initCtx, initAm, interestBalancePass, noOps])).1

/-- Claim C3: the loop exits early exactly when the mode is loan and the
just-computed balance is non-positive, with nothing appended afterwards: a
savings run always returns exactly `effTerm + 1` entries; a loan run returns
at most `effTerm + 1` entries, every non-final period entry has positive
balance (so no early exit happened there), and the run either covers the
full term or its last entry is the first with balance `≤ 0`. -/
theorem claim_C3_termination (sav : Bool) (base : BaseCtx) (ops : ℕ → OpPatch) :
    (sav = true →
      (calculate sav base ops).amortizationList.length = base.effTerm + 1 ∧
      (calculate sav base ops).contextList.length = base.effTerm + 1) ∧
    (sav = false →
      (calculate sav base ops).amortizationList.length ≤ base.effTerm + 1 ∧
      (∀ i, 1 ≤ i → i + 1 < (calculate sav base ops).amortizationList.length →
        0 < ((calculate sav base ops).amortizationList.getD i dummyAm).principalBalance) ∧
      ((calculate sav base ops).amortizationList.length = base.effTerm + 1 ∨
        (1 < (calculate sav base ops).amortizationList.length ∧
          ((calculate sav base ops).amortizationList.getD
            ((calculate sav base ops).amortizationList.length - 1)
            dummyAm).principalBalance ≤ 0))) := by
  have hlen : (calculate sav base ops).amortizationList.length =
      1 + (loopList sav base ops).length := by
    rw [calculate_amortizationList, interestBalancePass_length]
    simp [Nat.add_comm]
  have hlenc : (calculate sav base ops).contextList.length =
      1 + (loopList sav base ops).length := by
    rw [calculate_contextList]
    simp [Nat.add_comm]
  constructor
  · intro hsav
    subst hsav
    have : (loopList true base ops).length = base.effTerm :=
      calcLoop_savings_length base ops base.effTerm 1 (initCtx base, initAm base)
    omega
  · intro hsav
    subst hsav
    have hle : (loopList false base ops).length ≤ base.effTerm :=
      calcLoop_length_le false base ops base.effTerm 1 (initCtx base, initAm base)
    refine ⟨by omega, ?_, ?_⟩
    · intro i hi1 hi2
      obtain ⟨j, rfl⟩ : ∃ j, i = j + 1 := ⟨i - 1, by omega⟩
      have hj1 : j + 1 < (loopList false base ops).length := by omega
      have hne : ¬(false = false ∧
          ((loopList false base ops).getD j (dummyCtx, dummyAm)).2.principalBalance ≤ 0) :=
        calcLoop_no_early false base ops (dummyCtx, dummyAm) base.effTerm 1
          (initCtx base, initAm base) j hj1
      have hbal : 0 < ((loopList false base ops).getD j
          (dummyCtx, dummyAm)).2.principalBalance := by
        by_contra hcon
        exact hne ⟨rfl, by linarith [not_lt.mp hcon]⟩
      have hfld := calculate_amortization_getD_succ false base ops j (by omega)
      rw [hfld.2.1]
      exact hbal
    · rcases calcLoop_last_or_full false base ops (dummyCtx, dummyAm) base.effTerm 1
        (initCtx base, initAm base) with hfull | ⟨hpos, _, hlast⟩
      · left
        have : (loopList false base ops).length = base.effTerm := hfull
        omega
      · right
        have hpos2 : 0 < (loopList false base ops).length := hpos
        refine ⟨by omega, ?_⟩
        have hidx : (calculate false base ops).amortizationList.length - 1 =
            ((loopList false base ops).length - 1) + 1 := by omega
        rw [hidx]
        have hfld := calculate_amortization_getD_succ false base ops
          ((loopList false base ops).length - 1) (by omega)
        rw [hfld.2.1]
        exact hlast

theorem claim_C3_witness :
    (calculate true ⟨100, 1/10, 3, 10, RepaymentType.principalAndInterest⟩
        noOps).amortizationList.length = 3 + 1 ∧
    (calculate true ⟨100, 1/10, 3, 10, RepaymentType.principalAndInterest⟩
        noOps).contextList.length = 3 + 1 :=
  (claim_C3_termination true ⟨100, 1/10, 3, 10, RepaymentType.principalAndInterest⟩
    noOps).1 rfl

/-- Claim C5: the interest-balance series starts (period 0) at
`totals.interestPaid` in loan mode and `0` in savings mode, each later
period's `interestBalance` is the previous one minus that period's
`interestPaid` (subtrahend sign-inverted in savings mode), and in loan mode
the final entry's `interestBalance` is exactly `0` in exact arithmetic. -/
theorem claim_C5_interest_balance (sav : Bool) (base : BaseCtx) (ops : ℕ → OpPatch) :
    ∃ t, (calculate sav base ops).totals = some t ∧
      ((calculate sav base ops).amortizationList.getD 0 dummyAm).interestBalance =
        (if sav then 0 else t.interestPaid) ∧
      (∀ i, i + 1 < (calculate sav base ops).amortizationList.length →
        ((calculate sav base ops).amortizationList.getD (i + 1) dummyAm).interestBalance =
          ((calculate sav base ops).amortizationList.getD i dummyAm).interestBalance -
            (if sav
             then -((calculate sav base ops).amortizationList.getD (i + 1) dummyAm).interestPaid
             else ((calculate sav base ops).amortizationList.getD (i + 1) dummyAm).interestPaid)) ∧
      (sav = false →
        ((calculate sav base ops).amortizationList.getD
          ((calculate sav base ops).amortizationList.length - 1) dummyAm).interestBalance = 0) := by
  obtain ⟨t, ht, htr, hti⟩ := jsReduceTotals_spec (initAm base)
    ((loopList sav base ops).map Prod.snd)
  have hseed : (if sav then 0
      else (match jsReduceTotals (initAm base ::
        (loopList sav base ops).map Prod.snd) with
        | some t => t.interestPaid | none => 0)) = (if sav then 0 else t.interestPaid) := by
    rw [ht]
  refine ⟨t, ht, ?_, ?_, ?_⟩
  · rw [calculate_amortizationList, hseed, interestBalancePass_head]
    cases sav <;> simp [initAm]
  · intro i hi
    have hi2 : i + 1 < (initAm base :: (loopList sav base ops).map Prod.snd).length := by
      rw [calculate_amortizationList, interestBalancePass_length] at hi
      exact hi
    have hchain := interestBalancePass_chain sav
      (initAm base :: (loopList sav base ops).map Prod.snd)
      (if sav then 0
        else (match jsReduceTotals (initAm base ::
          (loopList sav base ops).map Prod.snd) with
          | some t => t.interestPaid | none => 0)) i hi2
    have hfields := interestBalancePass_fields sav
      (initAm base :: (loopList sav base ops).map Prod.snd)
      (if sav then 0
        else (match jsReduceTotals (initAm base ::
          (loopList sav base ops).map Prod.snd) with
          | some t => t.interestPaid | none => 0)) (i + 1) hi2
    rw [calculate_amortizationList, hchain, hfields.2.2.1]
  · intro hsav
    subst hsav
    have hne : (initAm base :: (loopList false base ops).map Prod.snd) ≠ [] := by simp
    have hlast := interestBalancePass_last false
      (initAm base :: (loopList false base ops).map Prod.snd)
      (if (false : Bool) then 0
        else (match jsReduceTotals (initAm base ::
          (loopList false base ops).map Prod.snd) with
          | some t => t.interestPaid | none => 0)) hne
    rw [calculate_amortizationList, hlast, hseed]
    simp only [Bool.false_eq_true, if_false]
    rw [hti]
    simp

theorem claim_C5_witness :
    ∃ t, (calculate false ⟨100, 1/2, 2, 0, RepaymentType.principalAndInterest⟩
        noOps).totals = some t ∧
      ((calculate false ⟨100, 1/2, 2, 0, RepaymentType.principalAndInterest⟩
          noOps).amortizationList.getD 0 dummyAm).interestBalance =
        (if false then 0 else t.interestPaid) ∧
      (∀ i, i + 1 < (calculate false ⟨100, 1/2, 2, 0, RepaymentType.principalAndInterest⟩
          noOps).amortizationList.length →
        ((calculate false ⟨100, 1/2, 2, 0, RepaymentType.principalAndInterest⟩
            noOps).amortizationList.getD (i + 1) dummyAm).interestBalance =
          ((calculate false ⟨100, 1/2, 2, 0, RepaymentType.principalAndInterest⟩
            noOps).amortizationList.getD i dummyAm).interestBalance -
            (if false
             then -((calculate false ⟨100, 1/2, 2, 0, RepaymentType.principalAndInterest⟩
               noOps).amortizationList.getD (i + 1) dummyAm).interestPaid
             else ((calculate false ⟨100, 1/2, 2, 0, RepaymentType.principalAndInterest⟩
               noOps).amortizationList.getD (i + 1) dummyAm).interestPaid)) ∧
      ((false : Bool) = false →
        ((calculate false ⟨100, 1/2, 2, 0, RepaymentType.principalAndInterest⟩
            noOps).amortizationList.getD
          ((calculate false ⟨100, 1/2, 2, 0, RepaymentType.principalAndInterest⟩
            noOps).amortizationList.length - 1) dummyAm).interestBalance = 0) :=
  claim_C5_interest_balance false ⟨100, 1/2, 2, 0, RepaymentType.principalAndInterest⟩ noOps

theorem mkSummaryItem_fin (q : ℚ) :
    mkSummaryItem (some (JSNum.fin q)) = Except.ok (JSNum.fin q) := rfl

theorem calcLoopChecked_eq (sav : Bool) (base : BaseCtx) (ops : ℕ → OpPatch) :
    ∀ rem cur prev, calcLoopChecked sav base ops prev cur rem =
      Except.ok (calcLoop sav base ops prev cur rem) := by
  intro rem
  induction rem with
  | zero => intro cur prev; rfl
  | succ rem ih =>
    intro cur prev
    rw [calcLoop_succ_eq]
    simp only [calcLoopChecked, mkSummaryItem_fin]
    by_cases hc : sav = false ∧ (stepPair sav base ops prev cur).2.principalBalance ≤ 0
    · rw [if_pos hc, if_pos hc]
      rfl
    · rw [if_neg hc, if_neg hc, ih]
      rfl

theorem calculateChecked_eq (sav : Bool) (base : BaseCtx) (ops : ℕ → OpPatch) :
    calculateChecked sav base ops = Except.ok (calculate sav base ops) := by
  unfold calculateChecked
  simp only [mkSummaryItem_fin, calcLoopChecked_eq]
  rfl

/-- Claim C6 (amended): the `SummaryItem` construction guard raises exactly
when the supplied period is undefined or NaN — an infinite period is
accepted, so "not a finite number" over-states the guard; the engine's loop
periods are always finite numbers, so every run (in particular with zero
rate, zero term or zero principal) completes with no construction error, and
a construction error, when modelled, aborts the whole run through `Except`
with no partial result. -/
theorem claim_C6_period_guard :
    (∀ p : Option JSNum, summaryItemFails p = true ↔ (p = none ∨ p = some JSNum.nan)) ∧
    (∀ (sav : Bool) (base : BaseCtx) (ops : ℕ → OpPatch),
      calculateChecked sav base ops = Except.ok (calculate sav base ops)) := by
  constructor
  · intro p
    match p with
    | none => simp [summaryItemFails, mkSummaryItem]
    | some JSNum.nan => simp [summaryItemFails, mkSummaryItem, jsIsNaN]
    | some JSNum.posInfty => simp [summaryItemFails, mkSummaryItem, jsIsNaN]
    | some JSNum.negInfty => simp [summaryItemFails, mkSummaryItem, jsIsNaN]
    | some (JSNum.fin q) => simp [summaryItemFails, mkSummaryItem, jsIsNaN]
  · exact calculateChecked_eq

theorem claim_C6_counterexample :
    ¬(summaryItemFails (some JSNum.posInfty) = true ↔
      ((some JSNum.posInfty : Option JSNum) = none ∨
        JSNum.isFiniteNum JSNum.posInfty = false)) := by
  decide

theorem claim_C6_witness : summaryItemFails none = true :=
  (claim_C6_period_guard.1 none).2 (Or.inl rfl)

theorem one_lt_q_pow (r : ℚ) (hr : 0 < r) (k : ℕ) (hk : 1 ≤ k) : 1 < (1 + r) ^ k := by
  have hq : 1 < 1 + r := by linarith
  calc (1 : ℚ) = 1 ^ k := (one_pow k).symm
  _ < (1 + r) ^ k := by
    apply pow_lt_pow_left₀ hq (by norm_num)
    omega

theorem q_pow_sub_one_pos (r : ℚ) (hr : 0 < r) (k : ℕ) (hk : 1 ≤ k) :
    0 < (1 + r) ^ k - 1 := by
  have := one_lt_q_pow r hr k hk
  linarith

theorem annB_zero (b r : ℚ) (n : ℕ) (hr : 0 < r) (hn : 1 ≤ n) :
    annB b r n 0 = b := by
  have hD := q_pow_sub_one_pos r hr n hn
  rw [annB, pow_zero, mul_div_assoc, div_self (ne_of_gt hD), mul_one]

theorem annB_n (b r : ℚ) (n : ℕ) : annB b r n n = 0 := by
  simp [annB]

theorem annB_pos (b r : ℚ) (n i : ℕ) (hb : 0 < b) (hr : 0 < r) (hi : i < n) :
    0 < annB b r n i := by
  have hq : 1 < 1 + r := by linarith
  have hpow : (1 + r) ^ i < (1 + r) ^ n := pow_lt_pow_right₀ hq hi
  have hD := q_pow_sub_one_pos r hr n (by omega)
  rw [annB]
  apply div_pos
  · nlinarith
  · linarith

theorem annB_rec (b r : ℚ) (n i : ℕ) (hr : 0 < r) (hn : 1 ≤ n) :
    annB b r n (i + 1) = annB b r n i * (1 + r) - annM b r n := by
  have hD := q_pow_sub_one_pos r hr n hn
  rw [annB, annB, annM, pow_succ]
  field_simp
  ring

theorem pmt_annB (b r : ℚ) (n i k : ℕ) (hr : 0 < r) (hik : i + k = n)
    (hk : 1 ≤ k) :
    pmt (annB b r n i) r k = annM b r n := by
  have hD := q_pow_sub_one_pos r hr n (by omega)
  have hK := q_pow_sub_one_pos r hr k hk
  rw [← hik, pow_add] at hD
  rw [pmt, if_neg (ne_of_gt hr), annB, annM, ← hik, pow_add]
  field_simp [ne_of_gt hD, ne_of_gt hK]
  ring

theorem annM_eq (b r : ℚ) (n : ℕ) (hr : 0 < r) (hn : 1 ≤ n) :
    annM b r n = annB b r n (n - 1) * (1 + r) := by
  have h := annB_rec b r n (n - 1) hr hn
  have hidx : n - 1 + 1 = n := by omega
  rw [hidx] at h
  rw [annB_n] at h
  linarith

theorem annB_last_lt_annM (b r : ℚ) (n : ℕ) (hb : 0 < b) (hr : 0 < r)
    (hn : 1 ≤ n) :
    annB b r n (n - 1) < annM b r n := by
  have hpos : 0 < annB b r n (n - 1) := annB_pos b r n (n - 1) hb hr (by omega)
  rw [annM_eq b r n hr hn]
  nlinarith

theorem annM_le_annB (b r : ℚ) (n i : ℕ) (hb : 0 < b) (hr : 0 < r)
    (hr2 : r ^ 2 + r ≤ 1) (hi : i + 2 ≤ n) :
    annM b r n ≤ annB b r n i := by
  have hq : 1 < 1 + r := by linarith
  have hD := q_pow_sub_one_pos r hr n (by omega)
  have h1 : (1 + r) ^ i ≤ (1 + r) ^ (n - 2) := by
    apply pow_le_pow_right₀ (by linarith)
    omega
  have h2 : (1 + r) ^ n = (1 + r) ^ (n - 2) * (1 + r) ^ 2 := by
    rw [← pow_add]
    congr 1
    omega
  have h3 : (1 : ℚ) ≤ (1 + r) ^ 2 * (1 - r) := by nlinarith
  have hpow : (1 + r) ^ i ≤ (1 + r) ^ n * (1 - r) := by
    have hp : (0 : ℚ) < (1 + r) ^ (n - 2) := by positivity
    calc (1 + r) ^ i ≤ (1 + r) ^ (n - 2) := h1
    _ ≤ (1 + r) ^ (n - 2) * ((1 + r) ^ 2 * (1 - r)) := by nlinarith
    _ = (1 + r) ^ n * (1 - r) := by rw [h2]; ring
  rw [annM, annB, div_le_div_iff_of_pos_right hD]
  nlinarith

theorem range_map_shift {α : Type} (f : ℕ → α) (rem cur : ℕ) :
    (List.range (rem + 1)).map (fun j => f (cur + j)) =
      f cur :: (List.range rem).map (fun j => f (cur + 1 + j)) := by
  rw [List.range_succ_eq_map, List.map_cons, List.map_map]
  refine congrArg₂ List.cons (by simp) ?_
  apply List.map_congr_left
  intro a ha
  simp only [Function.comp_apply]
  congr 1
  omega

theorem legacyCalcList_spec (b r : ℚ) (n : ℕ) (hb : 0 < b) (hr : 0 < r) :
    ∀ rem cur, 1 ≤ cur → cur + rem = n + 1 →
    legacyCalcList r n cur rem (annB b r n (cur - 1)) =
      (List.range rem).map (fun j => legacyRow b r n (cur + j)) := by
  intro rem
  induction rem with
  | zero => intro cur h1 h2; rfl
  | succ rem ih =>
    intro cur h1 h2
    have hcurn : cur ≤ n := by omega
    have hpmt : pmt (annB b r n (cur - 1)) r ((n - cur) + 1) = annM b r n :=
      pmt_annB b r n (cur - 1) ((n - cur) + 1) hr (by omega) (by omega)
    have hrec : annB b r n (cur - 1) - (annM b r n - annB b r n (cur - 1) * r) =
        annB b r n cur := by
      have h := annB_rec b r n (cur - 1) hr (by omega)
      have hidx : cur - 1 + 1 = cur := by omega
      rw [hidx] at h
      rw [h]
      ring
    have ih2 := ih (cur + 1) (by omega) (by omega)
    simp only [Nat.add_sub_cancel] at ih2
    simp only [legacyCalcList]
    rw [hpmt, hrec, ih2, range_map_shift (fun j => legacyRow b r n j) rem cur]
    refine congrArg₂ List.cons ?_ rfl
    simp [legacyRow]

theorem legacyCalculate_spec (b r : ℚ) (n : ℕ) (hb : 0 < b) (hr : 0 < r)
    (hn : 1 ≤ n) :
    legacyCalculate b r n = (List.range n).map (fun j => legacyRow b r n (1 + j)) := by
  have h := legacyCalcList_spec b r n hb hr n 1 (le_refl 1) (by omega)
  rw [legacyCalculate]
  rw [show (1 : ℕ) - 1 = 0 from rfl, annB_zero b r n hr hn] at h
  exact h

theorem engine_ctxAt_plain (b r w : ℚ) (n cur : ℕ) (bal : ℚ) :
    calculateContextAt ⟨b, r, n, w, RepaymentType.principalAndInterest⟩ noOps cur bal =
      { period := cur
        principal := bal
        effInterestRate := r
        effTerm := n
        repayment := w
        repaymentType := RepaymentType.principalAndInterest
        fee := 0
        offset := 0
        lumpSum := 0
        effExtraRepayment := 0 } := by
  simp [calculateContextAt, applyPatch, noOps, baseContextItem]

theorem engine_step_fst (b r w : ℚ) (n cur : ℕ) (hb : 0 < b) (hr : 0 < r)
    (h1 : 1 ≤ cur) (hcurn : cur ≤ n)
    (pc : ContextItem) (pa : AmortizationItem)
    (hrate : pc.effInterestRate = r)
    (hrep : 2 ≤ cur → pc.repayment = annM b r n)
    (hbal : pa.principalBalance = annB b r n (cur - 1)) :
    (stepPair false ⟨b, r, n, w, RepaymentType.principalAndInterest⟩ noOps
      (pc, pa) cur).1 = engineCtxRow b r n cur := by
  rw [stepPair_fst]
  rw [show (pc, pa).2.principalBalance = annB b r n (cur - 1) from hbal]
  rw [engine_ctxAt_plain]
  by_cases hcur1 : cur = 1
  · subst hcur1
    rw [if_pos ⟨rfl, Or.inl rfl⟩]
    have hpmt : pmt (annB b r n 0) r ((n - 1) + 1) = annM b r n :=
      pmt_annB b r n 0 ((n - 1) + 1) hr (by omega) (by omega)
    simp [calculateRepayment, engineCtxRow, hpmt]
  · rw [if_neg (by
      intro hcon
      rcases hcon.2 with h | h
      · exact hcur1 h
      · exact h (by rw [hrate]))]
    simp [engineCtxRow, hrep (by omega)]

theorem annB_step (b r : ℚ) (n cur : ℕ) (hr : 0 < r) (h1 : 1 ≤ cur) (hn : 1 ≤ n) :
    annB b r n (cur - 1) - (annM b r n - annB b r n (cur - 1) * r) = annB b r n cur := by
  have h := annB_rec b r n (cur - 1) hr hn
  have hidx : cur - 1 + 1 = cur := by omega
  rw [hidx] at h
  rw [h]
  ring

theorem engine_step_snd (b r : ℚ) (n cur : ℕ) (hb : 0 < b) (hr : 0 < r)
    (hr2 : r ^ 2 + r ≤ 1) (h1 : 1 ≤ cur) (hcurn : cur ≤ n) :
    amortFromCtx false (engineCtxRow b r n cur) = engineAmRow b r n cur := by
  have hprev_pos : 0 < annB b r n (cur - 1) := annB_pos b r n (cur - 1) hb hr (by omega)
  have hstep := annB_step b r n cur hr h1 (by omega)
  by_cases hlast : cur = n
  · subst hlast
    have hlt : annB b r cur (cur - 1) < annM b r cur :=
      annB_last_lt_annM b r cur hb hr (by omega)
    have hMeq : annB b r cur (cur - 1) + annB b r cur (cur - 1) * r = annM b r cur := by
      rw [annM_eq b r cur hr (by omega)]
      ring
    have hnn : annB b r cur cur = 0 := annB_n b r cur
    simp only [amortFromCtx, engineCtxRow, engineAmRow, Bool.false_eq_true, if_false,
      add_zero, sub_zero]
    rw [max_eq_left (le_of_lt (mul_pos hprev_pos hr))]
    rw [if_pos hlt]
    congr 1
    all_goals first
      | rfl
      | (rw [hnn]; ring)
      | linarith
  · have hle : annM b r n ≤ annB b r n (cur - 1) :=
      annM_le_annB b r n (cur - 1) hb hr hr2 (by omega)
    simp only [amortFromCtx, engineCtxRow, engineAmRow, Bool.false_eq_true, if_false,
      add_zero, sub_zero]
    rw [max_eq_left (le_of_lt (mul_pos hprev_pos hr))]
    rw [if_neg (not_lt.mpr hle)]
    congr 1

theorem engine_loop_spec (b r w : ℚ) (n : ℕ) (hb : 0 < b) (hr : 0 < r)
    (hr2 : r ^ 2 + r ≤ 1) :
    ∀ rem cur (pc : ContextItem) (pa : AmortizationItem),
    1 ≤ cur → cur + rem = n + 1 →
    pc.effInterestRate = r →
    (2 ≤ cur → pc.repayment = annM b r n) →
    pa.principalBalance = annB b r n (cur - 1) →
    calcLoop false ⟨b, r, n, w, RepaymentType.principalAndInterest⟩ noOps
        (pc, pa) cur rem =
      (List.range rem).map (fun j =>
        (engineCtxRow b r n (cur + j), engineAmRow b r n (cur + j))) := by
  intro rem
  induction rem with
  | zero => intro cur pc pa _ _ _ _ _; rfl
  | succ rem ih =>
    intro cur pc pa h1 h2 hrate hrep hbal
    have hcurn : cur ≤ n := by omega
    have hfst := engine_step_fst b r w n cur hb hr h1 hcurn pc pa hrate hrep hbal
    have hsnd : (stepPair false ⟨b, r, n, w, RepaymentType.principalAndInterest⟩ noOps
        (pc, pa) cur).2 = engineAmRow b r n cur := by
      rw [stepPair_snd, hfst]
      exact engine_step_snd b r n cur hb hr hr2 h1 hcurn
    have hpair : stepPair false ⟨b, r, n, w, RepaymentType.principalAndInterest⟩ noOps
        (pc, pa) cur = (engineCtxRow b r n cur, engineAmRow b r n cur) :=
      Prod.ext hfst hsnd
    rw [calcLoop_succ_eq, hpair,
      range_map_shift (fun j => (engineCtxRow b r n j, engineAmRow b r n j)) rem cur]
    by_cases hlastp : cur = n
    · have hrem : rem = 0 := by omega
      subst hrem
      simp [calcLoop]
    · have hcur_lt : cur < n := by omega
      have hbalpos : 0 < annB b r n cur := annB_pos b r n cur hb hr hcur_lt
      rw [if_neg (by
        intro hcon
        have hc2 : (engineAmRow b r n cur).principalBalance ≤ 0 := by
          simpa using hcon.2
        simp only [engineAmRow] at hc2
        linarith)]
      refine congrArg₂ List.cons rfl ?_
      have ihh := ih (cur + 1) (engineCtxRow b r n cur) (engineAmRow b r n cur)
        (by omega) (by omega) rfl (fun _ => rfl) (by simp [engineAmRow])
      exact ihh

theorem engine_loopList_plain (b r w : ℚ) (n : ℕ) (hb : 0 < b) (hr : 0 < r)
    (hr2 : r ^ 2 + r ≤ 1) (hn : 1 ≤ n) :
    loopList false ⟨b, r, n, w, RepaymentType.principalAndInterest⟩ noOps =
      (List.range n).map (fun j =>
        (engineCtxRow b r n (1 + j), engineAmRow b r n (1 + j))) := by
  have hbal : (initAm ⟨b, r, n, w, RepaymentType.principalAndInterest⟩).principalBalance =
      annB b r n (1 - 1) := by
    rw [show (1 : ℕ) - 1 = 0 from rfl, annB_zero b r n hr hn]
    rfl
  exact engine_loop_spec b r w n hb hr hr2 n 1
    (initCtx ⟨b, r, n, w, RepaymentType.principalAndInterest⟩)
    (initAm ⟨b, r, n, w, RepaymentType.principalAndInterest⟩)
    (le_refl 1) (by omega) rfl (fun hcon => absurd hcon (by omega)) hbal

/-- Claim C10 (amended): for a loan-mode run with positive principal,
positive per-period rate `r` additionally satisfying `r ^ 2 + r ≤ 1`
(about `r ≤ 0.618`, which keeps the carried level payment no larger than
the opening balance before the final period, so the clamp never rewrites
it), integer `effTerm ≥ 1`, principal-and-interest repayment and no
operators, the legacy engine (which recomputes the annuity payment every
period from the current balance and remaining term) and the main engine
(which computes it once at period 1 and carries it forward) produce, in
exact arithmetic, equal pmt/repayment, interestPaid, principalPaid and
closing balance for every period `1..effTerm`. -/
theorem claim_C10_amended_refinement (b r w : ℚ) (n : ℕ) (hb : 0 < b) (hr : 0 < r)
    (hr2 : r ^ 2 + r ≤ 1) (hn : 1 ≤ n) :
    (calculate false ⟨b, r, n, w, RepaymentType.principalAndInterest⟩
      noOps).amortizationList.length = n + 1 ∧
    (legacyCalculate b r n).length = n ∧
    (∀ i, 1 ≤ i → i ≤ n →
      ((legacyCalculate b r n).getD (i - 1) dummyLeg).period = i ∧
      ((calculate false ⟨b, r, n, w, RepaymentType.principalAndInterest⟩
        noOps).amortizationList.getD i dummyAm).period = i ∧
      ((legacyCalculate b r n).getD (i - 1) dummyLeg).pmt =
        ((calculate false ⟨b, r, n, w, RepaymentType.principalAndInterest⟩
          noOps).amortizationList.getD i dummyAm).repayment ∧
      ((legacyCalculate b r n).getD (i - 1) dummyLeg).interestPaid =
        ((calculate false ⟨b, r, n, w, RepaymentType.principalAndInterest⟩
          noOps).amortizationList.getD i dummyAm).interestPaid ∧
      ((legacyCalculate b r n).getD (i - 1) dummyLeg).principalPaid =
        ((calculate false ⟨b, r, n, w, RepaymentType.principalAndInterest⟩
          noOps).amortizationList.getD i dummyAm).principalPaid ∧
      ((legacyCalculate b r n).getD (i - 1) dummyLeg).principalFinalBalance =
        ((calculate false ⟨b, r, n, w, RepaymentType.principalAndInterest⟩
          noOps).amortizationList.getD i dummyAm).principalBalance) := by
  have hloop := engine_loopList_plain b r w n hb hr hr2 hn
  refine ⟨?_, ?_, ?_⟩
  · rw [calculate_amortizationList, interestBalancePass_length]
    simp [hloop]
  · rw [legacyCalculate_spec b r n hb hr hn]
    simp
  · intro i h1 h2
    obtain ⟨j, rfl⟩ : ∃ j, i = j + 1 := ⟨i - 1, by omega⟩
    have hj : j < n := by omega
    have hleg : (legacyCalculate b r n).getD (j + 1 - 1) dummyLeg =
        legacyRow b r n (1 + j) := by
      simp only [Nat.add_sub_cancel]
      rw [legacyCalculate_spec b r n hb hr hn]
      rw [List.getD_eq_getElem _ _ (by simpa using hj), List.getElem_map,
        List.getElem_range]
    have hj2 : j < (loopList false ⟨b, r, n, w, RepaymentType.principalAndInterest⟩
        noOps).length := by
      rw [hloop]
      simpa using hj
    have hsnd : ((loopList false ⟨b, r, n, w, RepaymentType.principalAndInterest⟩
        noOps).getD j (dummyCtx, dummyAm)).2 = engineAmRow b r n (1 + j) := by
      rw [hloop]
      rw [List.getD_eq_getElem _ _ (by simpa using hj), List.getElem_map,
        List.getElem_range]
    obtain ⟨hp, hbb, hip, hpp, hrr⟩ := calculate_amortization_getD_succ false
      ⟨b, r, n, w, RepaymentType.principalAndInterest⟩ noOps j hj2
    rw [hleg, hp, hbb, hip, hpp, hrr, hsnd]
    have harith : 1 + j = j + 1 := by omega
    rw [harith]
    simp [legacyRow, engineAmRow]

theorem claim_C10_counterexample :
    ((legacyCalculate 100 1 2).getD 0 dummyLeg).pmt ≠
      ((calculate false ⟨100, 1, 2, 0, RepaymentType.principalAndInterest⟩
        noOps).amortizationList.getD 1 dummyAm).repayment := by
  norm_num [legacyCalculate, legacyCalcList, pmt, calculate, loopList, calcLoop,
    stepPair, calculateAmortizationAt, calculateContextAt, applyPatch,
    baseContextItem, calculateRepayment, amortFromCtx, initCtx, initAm,
    interestBalancePass, jsReduceTotals, noOps]
  rw [if_neg (show ¬RepaymentType.principalAndInterest = RepaymentType.interestOnly by
    decide)]
  norm_num

theorem claim_C10_witness :
    (calculate false ⟨100, 1/2, 2, 0, RepaymentType.principalAndInterest⟩
      noOps).amortizationList.length = 2 + 1 ∧
    (legacyCalculate 100 (1/2) 2).length = 2 ∧
    (∀ i, 1 ≤ i → i ≤ 2 →
      ((legacyCalculate 100 (1/2) 2).getD (i - 1) dummyLeg).period = i ∧
      ((calculate false ⟨100, 1/2, 2, 0, RepaymentType.principalAndInterest⟩
        noOps).amortizationList.getD i dummyAm).period = i ∧
      ((legacyCalculate 100 (1/2) 2).getD (i - 1) dummyLeg).pmt =
        ((calculate false ⟨100, 1/2, 2, 0, RepaymentType.principalAndInterest⟩
          noOps).amortizationList.getD i dummyAm).repayment ∧
      ((legacyCalculate 100 (1/2) 2).getD (i - 1) dummyLeg).interestPaid =
        ((calculate false ⟨100, 1/2, 2, 0, RepaymentType.principalAndInterest⟩
          noOps).amortizationList.getD i dummyAm).interestPaid ∧
      ((legacyCalculate 100 (1/2) 2).getD (i - 1) dummyLeg).principalPaid =
        ((calculate false ⟨100, 1/2, 2, 0, RepaymentType.principalAndInterest⟩
          noOps).amortizationList.getD i dummyAm).principalPaid ∧
      ((legacyCalculate 100 (1/2) 2).getD (i - 1) dummyLeg).principalFinalBalance =
        ((calculate false ⟨100, 1/2, 2, 0, RepaymentType.principalAndInterest⟩
          noOps).amortizationList.getD i dummyAm).principalBalance) :=
  claim_C10_amended_refinement 100 (1/2) 0 2 (by norm_num) (by norm_num)
    (by norm_num) (by norm_num)
